import Mathlib

/-!
# TheVault — formal model of the core ingestion / reconciliation routines

A shallow embedding of the pure cores of the `TheVault` repository
(crates `src/` and `vquery/`) together with proofs about them.

Strings are modelled as `List Char` (`Str`).  Rust functions that can
panic are embedded as `Option`-returning functions where `none` stands
for the panic.  All definitions are executable.
-/

/-- Strings of the embedded program: lists of characters. -/
abbrev Str := List Char

/-- Convert a Lean string literal into the embedded string type. -/
def str (s : String) : Str := s.data

/-- Decimal digit test, same as Rust `char::is_ascii_digit` for the
characters that occur here (`Char.isDigit` tests `'0' ≤ c ≤ '9'`). -/
def isDig (c : Char) : Bool := c.isDigit

/-- Numeric value of a decimal digit character. -/
def digitVal (c : Char) : Nat := c.toNat - '0'.toNat

/-- Big-endian decimal value of a digit string (no validity check). -/
def digitsToNat (l : Str) : Nat := l.foldl (fun a c => a * 10 + digitVal c) 0

/-- Digit-block evaluation behind `parseUnsigned` (overflow fails; a
negative sign is only accepted when every accumulation step stays at 0). -/
def parseUDigits (maxv : Nat) (neg : Bool) (digits : Str) : Option Nat :=
  if digits = [] then none
  else if digits.all isDig then
    if neg then (if digitsToNat digits = 0 then some 0 else none)
    else if digitsToNat digits ≤ maxv then some (digitsToNat digits) else none
  else none

/-- Rust `str::parse::<uN>()`: optional sign, then one or more decimal
digits; a `'-'` sign is only accepted when the value is zero; values
above `maxv` overflow and fail. -/
def parseUnsigned (maxv : Nat) (s : Str) : Option Nat :=
  match s with
  | [] => none
  | c :: rest =>
    parseUDigits maxv (c == '-') (if c == '+' || c == '-' then rest else c :: rest)

/-- Digit-block evaluation behind `parseSigned`, range-checked. -/
def parseSDigits (minv maxv : Int) (neg : Bool) (digits : Str) : Option Int :=
  if digits = [] then none
  else if digits.all isDig then
    if minv ≤ (if neg then -(digitsToNat digits : Int) else (digitsToNat digits : Int)) ∧
        (if neg then -(digitsToNat digits : Int) else (digitsToNat digits : Int)) ≤ maxv then
      some (if neg then -(digitsToNat digits : Int) else (digitsToNat digits : Int))
    else none
  else none

/-- Rust `str::parse::<iN>()`: optional sign, then one or more decimal
digits, range-checked. -/
def parseSigned (minv maxv : Int) (s : Str) : Option Int :=
  match s with
  | [] => none
  | c :: rest =>
    parseSDigits minv maxv (c == '-') (if c == '+' || c == '-' then rest else c :: rest)

def parseU8 (s : Str) : Option Nat := parseUnsigned 255 s
def parseU32 (s : Str) : Option Nat := parseUnsigned (2 ^ 32 - 1) s
def parseI32 (s : Str) : Option Int := parseSigned (-(2 ^ 31)) (2 ^ 31 - 1) s
def parseI64 (s : Str) : Option Int := parseSigned (-(2 ^ 63)) (2 ^ 63 - 1) s

/-- The decimal digit characters. -/
def decChar (d : Nat) : Char :=
  match d with
  | 0 => '0' | 1 => '1' | 2 => '2' | 3 => '3' | 4 => '4'
  | 5 => '5' | 6 => '6' | 7 => '7' | 8 => '8' | _ => '9'

/-- Fuel-driven digit accumulator behind `natToStr` (structural
recursion keeps it kernel-reducible). -/
def natToStrAux : Nat → Nat → Str → Str
  | 0, _, acc => acc
  | fuel + 1, n, acc =>
    if n = 0 then acc else natToStrAux fuel (n / 10) (decChar (n % 10) :: acc)

/-- Decimal representation of a natural number (Rust `format!("{}", n)`). -/
def natToStr (n : Nat) : Str :=
  if n = 0 then ['0'] else natToStrAux n n []

/-- Rust `format!("{:0w}", n)`: decimal, left-padded with zeros to width `w`. -/
def fmtPad (w : Nat) (n : Nat) : Str :=
  List.replicate (w - (natToStr n).length) '0' ++ natToStr n

/-- Rust `str::split(sep)`: splitting an empty string yields `[""]`. -/
def splitOnChar (sep : Char) : Str → List Str
  | [] => [[]]
  | c :: rest =>
    if c = sep then [] :: splitOnChar sep rest
    else
      match splitOnChar sep rest with
      | h :: t => (c :: h) :: t
      | [] => [[c]]

/-- Rust `str::strip_prefix("D-").unwrap_or(s)` (also what
`vquery`'s `starts_with("D-")` + `[2..]` computes). -/
def stripPrefixD (s : Str) : Str :=
  match s with
  | 'D' :: '-' :: rest => rest
  | _ => s

/-!
## `normalize_dna_nr`

Two variants exist in the repository.

`src/samplesheet.rs` (`Option`-returning):
```rust
let dnanr = dnanr.strip_prefix("D-").unwrap_or(dnanr);
let parts: Vec<&str> = dnanr.split('-').collect();
if parts.len() != 2 { return None; }
Some(format!("{:02}-{:05}", parts[0].parse::<u32>().unwrap(),
                            parts[1].parse::<u32>().unwrap()))
```

`vquery/sample.rs` (`String`-returning):
```rust
let dnanr = if dnanr.starts_with("D-") { &dnanr[2..] } else { dnanr };
let parts: Vec<&str> = dnanr.split("-").collect();
if parts.len() != 2 { return dnanr.to_string(); }
format!("{:02}-{:05}", parts[0].parse::<u32>().unwrap(),
                       parts[1].parse::<u32>().unwrap())
```

The `unwrap()`s can panic; the embeddings return `none` for the panic.
-/

/-- The `format!("{:02}-{:05}", parts[0].parse::<u32>().unwrap(),
parts[1].parse::<u32>().unwrap())` expression shared by both variants;
`none` models the `unwrap()` panic on a failed parse. -/
def normalizePair (p1 p2 : Str) : Option Str :=
  match parseU32 p1, parseU32 p2 with
  | some a, some b => some (fmtPad 2 a ++ '-' :: fmtPad 5 b)
  | _, _ => none

/-- `normalize_dna_nr` from `src/samplesheet.rs`.
`none` = panic, `some none` = Rust `None`, `some (some y)` = `Some(y)`. -/
def normalize_dna_nr_ss (dnanr : Str) : Option (Option Str) :=
  match splitOnChar '-' (stripPrefixD dnanr) with
  | [p1, p2] => (normalizePair p1 p2).map some
  | _ => some none

/-- `normalize_dna_nr` from `vquery/src/sample.rs`.
`none` = panic, `some y` = returned string (the pass-through branch
returns the input with any `D-` prefix stripped). -/
def normalize_dna_nr_vq (dnanr : Str) : Option Str :=
  match splitOnChar '-' (stripPrefixD dnanr) with
  | [p1, p2] => normalizePair p1 p2
  | _ => some (stripPrefixD dnanr)

example : normalize_dna_nr_ss (str "D-1-345") = some (some (str "01-00345")) := by decide
example : normalize_dna_nr_vq (str "01-12345") = some (str "01-12345") := by decide
example : normalize_dna_nr_ss (str "not-a-number") = some none := by decide
example : normalize_dna_nr_ss (str "12-abc") = none := by decide

/-! ### Decimal formatting round-trips -/

lemma natToStrAux_zero (fuel : Nat) (acc : Str) : natToStrAux fuel 0 acc = acc := by
  cases fuel <;> simp [natToStrAux]

lemma natToStrAux_eq_digits (fuel : Nat) :
    ∀ n acc, n ≤ fuel → natToStrAux fuel n acc = ((Nat.digits 10 n).map decChar).reverse ++ acc := by
  induction fuel with
  | zero =>
    intro n acc h
    interval_cases n
    simp [natToStrAux]
  | succ f ih =>
    intro n acc h
    by_cases hn : n = 0
    · subst hn; simp [natToStrAux_zero]
    · have hdiv : n / 10 ≤ f := by
        have : n / 10 < n := Nat.div_lt_self (Nat.pos_of_ne_zero hn) (by norm_num)
        omega
      rw [natToStrAux, if_neg hn, ih (n / 10) _ hdiv,
        Nat.digits_def' (by norm_num : (1 : ℕ) < 10) (Nat.pos_of_ne_zero hn)]
      simp

lemma natToStr_eq_digits {n : Nat} (hn : n ≠ 0) :
    natToStr n = ((Nat.digits 10 n).map decChar).reverse := by
  rw [natToStr, if_neg hn, natToStrAux_eq_digits n n [] le_rfl, List.append_nil]

lemma digitVal_decChar {d : Nat} (h : d < 10) : digitVal (decChar d) = d := by
  interval_cases d <;> decide

lemma isDig_decChar {d : Nat} (h : d < 10) : isDig (decChar d) = true := by
  interval_cases d <;> decide

lemma digitsToNat_append (l₁ l₂ : Str) :
    digitsToNat (l₁ ++ l₂) = l₂.foldl (fun a c => a * 10 + digitVal c) (digitsToNat l₁) := by
  simp [digitsToNat, List.foldl_append]

lemma digitsToNat_rev_map (L : List Nat) (h : ∀ d ∈ L, d < 10) :
    digitsToNat ((L.map decChar).reverse) = Nat.ofDigits 10 L := by
  induction L with
  | nil => simp [digitsToNat, Nat.ofDigits]
  | cons d t ih =>
    have hd : d < 10 := h d (by simp)
    have ht : ∀ x ∈ t, x < 10 := fun x hx => h x (by simp [hx])
    simp only [List.map_cons, List.reverse_cons]
    rw [digitsToNat_append, Nat.ofDigits_cons, ih ht]
    simp [digitVal_decChar hd]
    ring

lemma digitsToNat_natToStr (n : Nat) : digitsToNat (natToStr n) = n := by
  by_cases hn : n = 0
  · subst hn; decide
  · rw [natToStr_eq_digits hn,
      digitsToNat_rev_map _ (fun d hd => Nat.digits_lt_base (by norm_num) hd),
      Nat.ofDigits_digits]

lemma natToStr_all_digits (n : Nat) : ∀ c ∈ natToStr n, isDig c = true := by
  by_cases hn : n = 0
  · subst hn; decide
  · rw [natToStr_eq_digits hn]
    intro c hc
    rw [List.mem_reverse, List.mem_map] at hc
    obtain ⟨d, hd, rfl⟩ := hc
    exact isDig_decChar (Nat.digits_lt_base (by norm_num) hd)

lemma natToStr_ne_nil (n : Nat) : natToStr n ≠ [] := by
  by_cases hn : n = 0
  · subst hn; decide
  · rw [natToStr_eq_digits hn]
    simp [Nat.digits_ne_nil_iff_ne_zero, hn]

lemma fmtPad_all_digits (w n : Nat) : ∀ c ∈ fmtPad w n, isDig c = true := by
  intro c hc
  rw [fmtPad, List.mem_append] at hc
  rcases hc with hc | hc
  · rw [List.eq_of_mem_replicate hc]; decide
  · exact natToStr_all_digits n c hc

lemma digitsToNat_replicate_zero (k : Nat) (l : Str) :
    digitsToNat (List.replicate k '0' ++ l) = digitsToNat l := by
  induction k with
  | zero => simp
  | succ m ih => simpa [digitsToNat, List.replicate_succ] using ih

lemma digitsToNat_fmtPad (w n : Nat) : digitsToNat (fmtPad w n) = n := by
  rw [fmtPad, digitsToNat_replicate_zero, digitsToNat_natToStr]

lemma fmtPad_ne_nil (w n : Nat) : fmtPad w n ≠ [] := by
  rw [fmtPad]
  intro h
  rcases List.append_eq_nil.mp h with ⟨-, h2⟩
  exact natToStr_ne_nil n h2

lemma isDig_ne_plus {c : Char} (h : isDig c = true) : c ≠ '+' := by
  rintro rfl; simp [isDig] at h

lemma isDig_ne_minus {c : Char} (h : isDig c = true) : c ≠ '-' := by
  rintro rfl; simp [isDig] at h

lemma isDig_ne_D {c : Char} (h : isDig c = true) : c ≠ 'D' := by
  rintro rfl; simp [isDig] at h

/-- Parsing an all-digit, non-empty string recovers its decimal value. -/
lemma parseUnsigned_of_digits {maxv : Nat} {s : Str} (hne : s ≠ [])
    (hdig : ∀ c ∈ s, isDig c = true) (hle : digitsToNat s ≤ maxv) :
    parseUnsigned maxv s = some (digitsToNat s) := by
  obtain ⟨c, rest, rfl⟩ := List.exists_cons_of_ne_nil hne
  have hc : isDig c = true := hdig c (by simp)
  have hp : (c == '+') = false := by
    simp only [beq_eq_false_iff_ne]; exact isDig_ne_plus hc
  have hm : (c == '-') = false := by
    simp only [beq_eq_false_iff_ne]; exact isDig_ne_minus hc
  rw [parseUnsigned, hp, hm]
  simp only [Bool.or_self, Bool.false_eq_true, if_false, parseUDigits]
  rw [if_neg (by simp), if_pos (by simpa [List.all_eq_true] using hdig), if_pos hle]

lemma parseUDigits_le {maxv a : Nat} {neg : Bool} {digits : Str}
    (h : parseUDigits maxv neg digits = some a) : a ≤ maxv := by
  rw [parseUDigits] at h
  split at h
  · simp at h
  split at h
  · split at h
    · split at h
      · simp only [Option.some.injEq] at h; omega
      · simp at h
    · split at h
      · simp only [Option.some.injEq] at h; omega
      · simp at h
  · simp at h

/-- A successfully parsed unsigned value is within range. -/
lemma parseUnsigned_le {maxv a : Nat} {s : Str} (h : parseUnsigned maxv s = some a) :
    a ≤ maxv := by
  rcases s with - | ⟨c, rest⟩
  · rw [parseUnsigned] at h; simp at h
  · rw [parseUnsigned] at h; exact parseUDigits_le h

lemma parseU32_fmtPad {w n : Nat} (h : n ≤ 2 ^ 32 - 1) :
    parseU32 (fmtPad w n) = some n := by
  rw [parseU32, parseUnsigned_of_digits (fmtPad_ne_nil w n) (fmtPad_all_digits w n)
    (by rw [digitsToNat_fmtPad]; exact h), digitsToNat_fmtPad]

lemma stripPrefixD_of_digits {l : Str} (h : ∀ c ∈ l, isDig c = true) :
    stripPrefixD l = l := by
  rw [stripPrefixD.eq_def]
  split
  · exact absurd rfl (isDig_ne_D (h 'D' (by simp)))
  · rfl

lemma splitOnChar_no_sep {sep : Char} {l : Str} (h : ∀ c ∈ l, c ≠ sep) :
    splitOnChar sep l = [l] := by
  induction l with
  | nil => rfl
  | cons c rest ih =>
    rw [splitOnChar, if_neg (h c (by simp)), ih (fun x hx => h x (by simp [hx]))]

lemma splitOnChar_sep_append {sep : Char} {x y : Str} (h : ∀ c ∈ x, c ≠ sep) :
    splitOnChar sep (x ++ sep :: y) = x :: splitOnChar sep y := by
  induction x with
  | nil => simp [splitOnChar]
  | cons c rest ih =>
    rw [List.cons_append, splitOnChar, if_neg (h c (by simp)),
      ih (fun d hd => h d (by simp [hd]))]

lemma isDig_ne_dash {c : Char} (h : isDig c = true) : c ≠ '-' := isDig_ne_minus h

/-- Splitting a freshly formatted DNA number recovers its two parts. -/
lemma splitOnChar_fmt (a b : Nat) :
    splitOnChar '-' (fmtPad 2 a ++ '-' :: fmtPad 5 b) = [fmtPad 2 a, fmtPad 5 b] := by
  rw [splitOnChar_sep_append (fun c hc => isDig_ne_dash (fmtPad_all_digits 2 a c hc)),
    splitOnChar_no_sep (fun c hc => isDig_ne_dash (fmtPad_all_digits 5 b c hc))]

lemma stripPrefixD_cons_of_ne {c : Char} (h : c ≠ 'D') (rest : Str) :
    stripPrefixD (c :: rest) = c :: rest := by
  rw [stripPrefixD.eq_def]
  split
  · next heq =>
    rw [List.cons.injEq] at heq
    exact absurd heq.1 h
  · rfl

lemma stripPrefixD_fmt (a b : Nat) :
    stripPrefixD (fmtPad 2 a ++ '-' :: fmtPad 5 b) = fmtPad 2 a ++ '-' :: fmtPad 5 b := by
  obtain ⟨c, cs, hc⟩ := List.exists_cons_of_ne_nil (fmtPad_ne_nil 2 a)
  have hcd : isDig c = true := fmtPad_all_digits 2 a c (by rw [hc]; simp)
  rw [hc, List.cons_append, stripPrefixD_cons_of_ne (isDig_ne_D hcd)]

lemma u32_bound {p : Str} {a : Nat} (h : parseU32 p = some a) : a ≤ 2 ^ 32 - 1 :=
  parseUnsigned_le h

lemma normalizePair_fmt {a b : Nat} (ha : a ≤ 2 ^ 32 - 1) (hb : b ≤ 2 ^ 32 - 1) :
    normalizePair (fmtPad 2 a) (fmtPad 5 b) =
      some (fmtPad 2 a ++ '-' :: fmtPad 5 b) := by
  rw [normalizePair, parseU32_fmtPad ha, parseU32_fmtPad hb]

/-- Inversion: a successful `normalizePair` run means both parts parsed
and the output is the formatted pair. -/
lemma normalizePair_inv {p1 p2 y : Str} (h : normalizePair p1 p2 = some y) :
    ∃ a b, parseU32 p1 = some a ∧ parseU32 p2 = some b ∧
      y = fmtPad 2 a ++ '-' :: fmtPad 5 b := by
  rw [normalizePair] at h
  rcases h1 : parseU32 p1 with - | a <;> rw [h1] at h
  · rcases h2 : parseU32 p2 with - | b <;> rw [h2] at h <;> simp at h
  · rcases h2 : parseU32 p2 with - | b <;> rw [h2] at h <;> simp at h
    exact ⟨a, b, rfl, rfl, h.symm⟩

lemma normalizePair_none {p1 p2 : Str}
    (h : parseU32 p1 = none ∨ parseU32 p2 = none) : normalizePair p1 p2 = none := by
  rw [normalizePair]
  rcases h1 : parseU32 p1 with - | a <;> rcases h2 : parseU32 p2 with - | b <;>
    simp_all

lemma normalize_ss_of_split {x p1 p2 : Str}
    (hs : splitOnChar '-' (stripPrefixD x) = [p1, p2]) :
    normalize_dna_nr_ss x = (normalizePair p1 p2).map some := by
  rw [normalize_dna_nr_ss, hs]

lemma normalize_vq_of_split {x p1 p2 : Str}
    (hs : splitOnChar '-' (stripPrefixD x) = [p1, p2]) :
    normalize_dna_nr_vq x = normalizePair p1 p2 := by
  rw [normalize_dna_nr_vq, hs]

lemma normalize_ss_default {x : Str}
    (h2 : (splitOnChar '-' (stripPrefixD x)).length ≠ 2) :
    normalize_dna_nr_ss x = some none := by
  rw [normalize_dna_nr_ss]
  generalize hs : splitOnChar '-' (stripPrefixD x) = L at h2
  rcases L with _ | ⟨p1, _ | ⟨p2, _ | ⟨q, t⟩⟩⟩
  · rfl
  · rfl
  · simp at h2
  · rfl

lemma normalize_vq_default {x : Str}
    (h2 : (splitOnChar '-' (stripPrefixD x)).length ≠ 2) :
    normalize_dna_nr_vq x = some (stripPrefixD x) := by
  rw [normalize_dna_nr_vq]
  generalize hs : splitOnChar '-' (stripPrefixD x) = L at h2
  rcases L with _ | ⟨p1, _ | ⟨p2, _ | ⟨q, t⟩⟩⟩
  · rfl
  · rfl
  · simp at h2
  · rfl

lemma length_two_ex {α : Type} {L : List α} (h : L.length = 2) :
    ∃ p1 p2, L = [p1, p2] := by
  rcases L with _ | ⟨p1, _ | ⟨p2, _ | ⟨q, t⟩⟩⟩ <;> simp at h
  exact ⟨p1, p2, rfl⟩

/-- Inversion for the full `src/samplesheet.rs` normalizer. -/
lemma normalize_ss_inv {x y : Str} (h : normalize_dna_nr_ss x = some (some y)) :
    ∃ p1 p2 a b, splitOnChar '-' (stripPrefixD x) = [p1, p2] ∧
      parseU32 p1 = some a ∧ parseU32 p2 = some b ∧
      y = fmtPad 2 a ++ '-' :: fmtPad 5 b := by
  by_cases h2 : (splitOnChar '-' (stripPrefixD x)).length = 2
  · obtain ⟨p1, p2, hs⟩ := length_two_ex h2
    rw [normalize_ss_of_split hs] at h
    rcases hp : normalizePair p1 p2 with - | z <;> rw [hp] at h <;> simp at h
    obtain ⟨a, b, h1', h2', hy⟩ := normalizePair_inv hp
    exact ⟨p1, p2, a, b, hs, h1', h2', h ▸ hy⟩
  · rw [normalize_ss_default h2] at h
    simp at h

/-!
## Claim C8 — idempotence of DNA-number normalization
-/

/-- C8 (amended): on every input that the normalizer accepts (the
dash-split after stripping an optional `D-` prefix has exactly two
parts and both parse as `u32`), normalization is idempotent in both
variants and both variants agree; `normalize("D-1-345") = "01-00345"`;
and an input whose dash-split does not have exactly two parts is not
normalized — absent (`None`) in the `Option`-returning
`src/samplesheet.rs` variant, passed through with the `D-` prefix
stripped in the `String`-returning `vquery/src/sample.rs` variant. -/
theorem normalize_dna_nr_idempotent :
    (∀ x y : Str, normalize_dna_nr_ss x = some (some y) →
        normalize_dna_nr_ss y = some (some y) ∧
        normalize_dna_nr_vq x = some y ∧ normalize_dna_nr_vq y = some y) ∧
    normalize_dna_nr_ss (str "D-1-345") = some (some (str "01-00345")) ∧
    normalize_dna_nr_vq (str "D-1-345") = some (str "01-00345") ∧
    (∀ x : Str, (splitOnChar '-' (stripPrefixD x)).length ≠ 2 →
        normalize_dna_nr_ss x = some none ∧
        normalize_dna_nr_vq x = some (stripPrefixD x)) := by
  refine ⟨?_, by decide, by decide, fun x h2 => ⟨normalize_ss_default h2, normalize_vq_default h2⟩⟩
  intro x y h
  obtain ⟨p1, p2, a, b, hs, h1, h2, rfl⟩ := normalize_ss_inv h
  have ha := u32_bound h1
  have hb := u32_bound h2
  have hs' : splitOnChar '-' (stripPrefixD (fmtPad 2 a ++ '-' :: fmtPad 5 b)) =
      [fmtPad 2 a, fmtPad 5 b] := by rw [stripPrefixD_fmt, splitOnChar_fmt]
  refine ⟨?_, ?_, ?_⟩
  · rw [normalize_ss_of_split hs', normalizePair_fmt ha hb]; rfl
  · rw [normalize_vq_of_split hs, normalizePair, h1, h2]
  · rw [normalize_vq_of_split hs', normalizePair_fmt ha hb]

/-- Witness for C8: the theorem applied to the concrete accepted input
`"D-1-345"`. -/
theorem normalize_dna_nr_idempotent_witness :
    normalize_dna_nr_ss (str "01-00345") = some (some (str "01-00345")) :=
  (normalize_dna_nr_idempotent.1 (str "D-1-345") (str "01-00345") (by decide)).1

/-- C8 counterexample: `"12-abc"` is not in a supported
number-dash-number format, yet neither variant returns the claimed
absent/pass-through value — both panic on `unwrap()` instead. -/
theorem normalize_dna_nr_unsupported_counterexample :
    normalize_dna_nr_ss (str "12-abc") ≠ some none ∧
    normalize_dna_nr_vq (str "12-abc") ≠ some (str "12-abc") := by decide

/-!
## Claim C9 — the normalizer is not total
-/

/-- C9 (confirmed): whenever the input, after stripping an optional
`D-` prefix, dash-splits into exactly two parts of which at least one
fails `u32` parsing, both `normalize_dna_nr` variants panic on an
`unwrap` (modelled as `none`); and the `None`/pass-through branch is
taken exactly when the number of dash-separated parts differs from
two. -/
theorem normalize_dna_nr_panics (x p1 p2 : Str)
    (hs : splitOnChar '-' (stripPrefixD x) = [p1, p2])
    (hbad : parseU32 p1 = none ∨ parseU32 p2 = none) :
    (normalize_dna_nr_ss x = none ∧ normalize_dna_nr_vq x = none) ∧
    (∀ z : Str, normalize_dna_nr_ss z = some none →
        (splitOnChar '-' (stripPrefixD z)).length ≠ 2) ∧
    (∀ z : Str, (splitOnChar '-' (stripPrefixD z)).length ≠ 2 →
        normalize_dna_nr_ss z = some none ∧
        normalize_dna_nr_vq z = some (stripPrefixD z)) := by
  refine ⟨⟨?_, ?_⟩, ?_, fun z h2 => ⟨normalize_ss_default h2, normalize_vq_default h2⟩⟩
  · rw [normalize_ss_of_split hs, normalizePair_none hbad]; rfl
  · rw [normalize_vq_of_split hs, normalizePair_none hbad]
  · intro z hz h2
    obtain ⟨q1, q2, hq⟩ := length_two_ex h2
    rw [normalize_ss_of_split hq] at hz
    rcases hp : normalizePair q1 q2 with - | w <;> rw [hp] at hz <;> simp at hz

/-- Witness for C9: the panic at the concrete input `"12-abc"`. -/
theorem normalize_dna_nr_panics_witness :
    normalize_dna_nr_ss (str "12-abc") = none ∧
    normalize_dna_nr_vq (str "12-abc") = none :=
  (normalize_dna_nr_panics (str "12-abc") (str "12") (str "abc")
    (by decide) (Or.inr (by decide))).1

/-!
## `parse_date` — run-name date parsing

Two variants again:

`src/src/run.rs` (chrono; `from_ymd` panics on an invalid date):
```rust
if source.len() < 6 { return Err(Box::from("Date string too short")); }
let year = source[0..2].parse::<i32>()? + 2000;
let month = source[2..4].parse::<u32>()?;
let day = source[4..6].parse::<u32>()?;
Ok(chrono::NaiveDate::from_ymd(year, month, day))
```

`vquery/src/runwalker.rs` (time; `try_from_ymd` returns `Err`):
```rust
if source.len() < 6 { return Err(Box::from("Date string too short")); }
let year = source[0..2].parse::<i32>()? + 2000;
let month = source[2..4].parse::<u8>()?;
let day = source[4..6].parse::<u8>()?;
Ok(Date::try_from_ymd(year, month, day)?)
```

The year is `2000 ± 99`, far inside the supported ranges of both date
libraries, so calendar validity is exactly the Gregorian month/day
check.
-/

/-- A calendar date as year/month/day. -/
structure YMD where
  year : Int
  month : Nat
  day : Nat
deriving DecidableEq, Repr

/-- Outcome of a date parse: success, recoverable error, or panic. -/
inductive DateResult where
  | ok (d : YMD)
  | err
  | panic
deriving DecidableEq, Repr

/-- Gregorian leap-year rule (as used by both chrono and time). -/
def isLeapYear (y : Int) : Bool := y % 4 == 0 && (y % 100 != 0 || y % 400 == 0)

/-- Days in a Gregorian month (callers check `1 ≤ m ∧ m ≤ 12` separately). -/
def daysInMonth (y : Int) (m : Nat) : Nat :=
  match m with
  | 2 => if isLeapYear y then 29 else 28
  | 4 => 30 | 6 => 30 | 9 => 30 | 11 => 30
  | _ => 31

/-- Validity check performed by `chrono::NaiveDate::from_ymd` /
`time::Date::try_from_ymd` for years in the 1901–2099 range. -/
def validYMD (y : Int) (m d : Nat) : Bool :=
  1 ≤ m && m ≤ 12 && 1 ≤ d && d ≤ daysInMonth y m

/-- `parse_date` from `src/src/run.rs` (chrono variant; panics on an
invalid calendar date). -/
def parse_date_run (source : Str) : DateResult :=
  if source.length < 6 then .err
  else
    match parseI32 (source.take 2) with
    | none => .err
    | some y =>
      match parseU32 ((source.drop 2).take 2) with
      | none => .err
      | some m =>
        match parseU32 ((source.drop 4).take 2) with
        | none => .err
        | some d =>
          if validYMD (y + 2000) m d then .ok ⟨y + 2000, m, d⟩ else .panic

/-- `parse_date` from `vquery/src/runwalker.rs` (time variant; an
invalid calendar date is a recoverable error). -/
def parse_date_vq (source : Str) : DateResult :=
  if source.length < 6 then .err
  else
    match parseI32 (source.take 2) with
    | none => .err
    | some y =>
      match parseU8 ((source.drop 2).take 2) with
      | none => .err
      | some m =>
        match parseU8 ((source.drop 4).take 2) with
        | none => .err
        | some d =>
          if validYMD (y + 2000) m d then .ok ⟨y + 2000, m, d⟩ else .err

example : parse_date_vq (str "210802_M70821") = .ok ⟨2021, 8, 2⟩ := by decide
example : parse_date_vq (str "210245") = .err := by decide
example : parse_date_run (str "210245") = .panic := by decide
example : parse_date_run (str "2102") = .err := by decide
example : parse_date_run (str "21xx45") = .err := by decide

/-!
## Claim C5 — `parse_date` failure conditions
-/

lemma validYMD_cases (y : Int) (m d : Nat) :
    validYMD y m d = true ∨ validYMD y m d = false := by
  cases validYMD y m d <;> simp

/-- C5 (amended): the `vquery` `parse_date` returns an error exactly
when the input is shorter than 6 characters, a 2-character segment
fails integer parsing, or the segments form an invalid calendar date —
otherwise it succeeds with year `2000 + YY`, and it never panics.  The
`src/run.rs` `parse_date` behaves identically on short inputs and
failed segment parses, but on an invalid calendar date it panics
(aborts) instead of returning the error. -/
theorem parse_date_spec :
    (∀ s : Str, parse_date_vq s ≠ .panic) ∧
    (∀ s : Str, parse_date_vq s = .err ↔
      (s.length < 6 ∨ parseI32 (s.take 2) = none ∨ parseU8 ((s.drop 2).take 2) = none ∨
        parseU8 ((s.drop 4).take 2) = none ∨
        ∃ y m d, parseI32 (s.take 2) = some y ∧ parseU8 ((s.drop 2).take 2) = some m ∧
          parseU8 ((s.drop 4).take 2) = some d ∧ validYMD (y + 2000) m d = false)) ∧
    (∀ s : Str, ∀ y : Int, ∀ m d : Nat, 6 ≤ s.length → parseI32 (s.take 2) = some y →
      parseU8 ((s.drop 2).take 2) = some m → parseU8 ((s.drop 4).take 2) = some d →
      validYMD (y + 2000) m d = true → parse_date_vq s = .ok ⟨y + 2000, m, d⟩) ∧
    (∀ s : Str, ∀ y : Int, ∀ m d : Nat, 6 ≤ s.length → parseI32 (s.take 2) = some y →
      parseU32 ((s.drop 2).take 2) = some m → parseU32 ((s.drop 4).take 2) = some d →
      parse_date_run s =
        (if validYMD (y + 2000) m d then .ok ⟨y + 2000, m, d⟩ else .panic)) ∧
    (∀ s : Str, (s.length < 6 ∨ parseI32 (s.take 2) = none ∨
        parseU32 ((s.drop 2).take 2) = none ∨ parseU32 ((s.drop 4).take 2) = none) →
      parse_date_run s = .err) := by
  refine ⟨?_, ?_, ?_, ?_, ?_⟩
  · intro s h
    rw [parse_date_vq] at h
    split at h
    · simp at h
    · rcases hy : parseI32 (s.take 2) with - | y <;> simp only [hy] at h
      · simp at h
      · rcases hm : parseU8 ((s.drop 2).take 2) with - | m <;> simp only [hm] at h
        · simp at h
        · rcases hd : parseU8 ((s.drop 4).take 2) with - | d <;> simp only [hd] at h
          · simp at h
          · split at h <;> simp at h
  · intro s
    by_cases hl : s.length < 6
    · simp [parse_date_vq, hl]
    · rcases hy : parseI32 (s.take 2) with - | y
      · simp [parse_date_vq, hl, hy]
      · rcases hm : parseU8 ((s.drop 2).take 2) with - | m
        · simp [parse_date_vq, hl, hy, hm]
        · rcases hd : parseU8 ((s.drop 4).take 2) with - | d
          · simp [parse_date_vq, hl, hy, hm, hd]
          · rcases validYMD_cases (y + 2000) m d with hv | hv <;>
              simp [parse_date_vq, hl, hy, hm, hd, hv]
  · intro s y m d hl hy hm hd'
    intro hv
    rw [parse_date_vq, if_neg (by omega)]
    simp only [hy, hm, hd', hv, if_true]
  · intro s y m d hl hy hm hd'
    rw [parse_date_run, if_neg (by omega)]
    simp only [hy, hm, hd']
  · intro s h
    rcases h with hl | hy | hm | hd'
    · rw [parse_date_run, if_pos hl]
    · by_cases hl : s.length < 6
      · rw [parse_date_run, if_pos hl]
      · rw [parse_date_run, if_neg hl]; simp only [hy]
    · by_cases hl : s.length < 6
      · rw [parse_date_run, if_pos hl]
      · rw [parse_date_run, if_neg hl]
        rcases hy : parseI32 (s.take 2) with - | y
        · simp
        · simp only [hm]
    · by_cases hl : s.length < 6
      · rw [parse_date_run, if_pos hl]
      · rw [parse_date_run, if_neg hl]
        rcases hy : parseI32 (s.take 2) with - | y
        · simp
        · rcases hm : parseU32 ((s.drop 2).take 2) with - | m
          · simp
          · simp only [hd']

/-- Witness for C5: the amended theorem applied at `"210802_M70821"`. -/
theorem parse_date_spec_witness :
    parse_date_vq (str "210802_M70821") = .ok ⟨2021, 8, 2⟩ := by
  have h := parse_date_spec.2.2.1 (str "210802_M70821") 21 8 2
    (by decide) (by decide) (by decide) (by decide) (by decide)
  simpa using h

/-- C5 counterexample: on `"210245"` (valid segments, invalid calendar
date — February 45th) the `src/run.rs` variant panics in
`chrono::NaiveDate::from_ymd` instead of returning an error result as
the claim states. -/
theorem parse_date_run_panic_counterexample :
    parse_date_run (str "210245") = .panic := by decide

/-!
## `file_filter` — the run walker's pruning predicate

From `vquery/src/runwalker.rs`.  A filesystem entry is modelled by its
file type, name and depth.  The Rust code byte-slices the name with
`[0..3]` (depth 1) and `[0..1]` (depth 2) and `unwrap()`s the integer
parses, so it can panic (`none` below).  Note the slices: at depth 1
only the first THREE characters are parsed and compared with the full
4-digit watermark year, and at depth 2 only the FIRST character is
parsed and compared with the watermark month.  Non-directory entries
are only checked for a (lowercased) `.zip` suffix and entirely bypass
the depth/date checks.
-/

/-- ASCII lowercasing, as `str::to_ascii_lowercase`. -/
def charLower (c : Char) : Char :=
  if 65 ≤ c.toNat ∧ c.toNat ≤ 90 then Char.ofNat (c.toNat + 32) else c

def isPrefixOfB : Str → Str → Bool
  | [], _ => true
  | _ :: _, [] => false
  | c :: cs, d :: ds => c == d && isPrefixOfB cs ds

/-- Rust `str::ends_with`. -/
def endsWith (l suf : Str) : Bool := isPrefixOfB suf.reverse l.reverse

/-- Lexicographic order on dates, as `time::Date`'s `Ord`. -/
def ymdLt (a b : YMD) : Bool :=
  a.year < b.year ||
    (a.year == b.year && (a.month < b.month || (a.month == b.month && a.day < b.day)))

/-- A directory-walker entry: file type, file name, depth below the root. -/
structure DirEntry where
  isDir : Bool
  name : Str
  depth : Nat

/-- `file_filter` from `vquery/src/runwalker.rs`; `none` models a panic
(string-slice out of range or `unwrap` of a failed parse). -/
def file_filter (entry : DirEntry) (start_date : Option YMD) : Option Bool :=
  if !entry.isDir && !endsWith (entry.name.map charLower) (str ".zip") then
    some false
  else if entry.isDir then
    match entry.depth with
    | 0 => some true
    | 1 =>
      match start_date with
      | some d =>
        if entry.name.length < 3 then none
        else
          match parseI32 (entry.name.take 3) with
          | none => none
          | some fy => if fy < d.year then some false else some true
      | none => some true
    | 2 =>
      match start_date with
      | some d =>
        if entry.name.length < 1 then none
        else
          match parseU8 (entry.name.take 1) with
          | none => none
          | some fm => if (fm : Nat) < d.month then some false else some true
      | none => some true
    | 3 =>
      match start_date with
      | some d =>
        match parse_date_vq entry.name with
        | .ok fdate => if ymdLt fdate d then some false else some true
        | _ => some false
      | none => some true
    | _ => some false
  else some true

example : file_filter ⟨true, str "2021", 0⟩ (some ⟨2021, 8, 2⟩) = some true := by decide
example : file_filter ⟨true, str "210802_M70821", 3⟩ (some ⟨2021, 8, 2⟩) = some true := by decide
example : file_filter ⟨true, str "210101_M70821", 3⟩ (some ⟨2021, 8, 2⟩) = some false := by decide

/-!
## Claim C4 — run-walker pruning against the watermark
-/

/-- C4 (code evidence): with watermark 2021-08-02 the year directory
`"2021"` is pruned — the code parses only the first three characters
(`202`) and compares them with the 4-digit watermark year — although
its leading numeric year (2021) is not lower than the watermark's;
with a watermark of month 3 the month directory `"07"` is pruned —
only the first character (`0`) is parsed — although its leading
numeric month (7) is not lower; and a depth-3 `.zip` entry dated far
before the watermark is NOT pruned, because non-directory entries
bypass the date check entirely. -/
theorem file_filter_diverges :
    file_filter ⟨true, str "2021", 1⟩ (some ⟨2021, 8, 2⟩) = some false ∧
    file_filter ⟨true, str "07", 2⟩ (some ⟨2021, 3, 2⟩) = some false ∧
    file_filter ⟨false, str "190101_run.zip", 3⟩ (some ⟨2021, 8, 2⟩) = some true := by
  decide

/-!
## Claim C10 — the filter panics on malformed year/month names
-/

lemma parseUnsigned_single_nondigit {maxv : Nat} {c : Char} (h : isDig c = false) :
    parseUnsigned maxv [c] = none := by
  cases hc : (c == '+' || c == '-') <;>
    simp [parseUnsigned, parseUDigits, hc, h]

/-- C10 (confirmed): when a watermark is given, `file_filter` panics
(`none`) on any depth-1 directory whose name is shorter than 3
characters or whose first three characters do not parse as an integer,
and on any depth-2 directory whose first character is not a digit;
such entries are never skipped via a graceful `false` return. -/
theorem file_filter_panics (d : YMD) (n1 n2 : Str) (c : Char)
    (h1 : n1.length < 3 ∨ parseI32 (n1.take 3) = none)
    (h2 : isDig c = false) :
    file_filter ⟨true, n1, 1⟩ (some d) = none ∧
    file_filter ⟨true, c :: n2, 2⟩ (some d) = none := by
  constructor
  · rw [file_filter]
    simp only [Bool.not_true, Bool.false_and, Bool.false_eq_true, if_false, if_true]
    by_cases hl : n1.length < 3
    · rw [if_pos hl]
    · rcases h1 with h1 | h1
      · exact absurd h1 hl
      · rw [if_neg hl]
        simp only [h1]
  · rw [file_filter]
    simp only [Bool.not_true, Bool.false_and, Bool.false_eq_true, if_false, if_true]
    rw [if_neg (by simp)]
    have : parseU8 ((c :: n2).take 1) = none := by
      simpa [parseU8] using @parseUnsigned_single_nondigit 255 c h2
    simp only [this]

/-- Witness for C10: concrete panics at a 2-character year directory
and at a month directory starting with a letter. -/
theorem file_filter_panics_witness :
    file_filter ⟨true, str "21", 1⟩ (some ⟨2021, 8, 2⟩) = none ∧
    file_filter ⟨true, 'J' :: str "uli", 2⟩ (some ⟨2021, 8, 2⟩) = none :=
  file_filter_panics ⟨2021, 8, 2⟩ (str "21") (str "uli") 'J'
    (Or.inl (by decide)) (by decide)

/-!
## `match_samples` — the reconciliation cascade

From `vquery/src/vaultdb.rs`.  The sample table row type follows
`vquery/src/models.rs` (`dna_nr` and `project` are non-nullable
there).  Each `let candidates = ...` stage of the Rust function is one
pool function below; the DNA stage calls the `String`-returning
`normalize_dna_nr` and can therefore panic (`none`).
-/

/-- Rust `str::contains` (substring test). -/
def strContains (hay pat : Str) : Bool :=
  match hay with
  | [] => isPrefixOfB pat []
  | c :: t => isPrefixOfB pat (c :: t) || strContains t pat

/-- `is_dna_nr` from `vquery/src/sample.rs`: length at least 8, and
after stripping an optional `D-` prefix exactly 8 characters with a
dash at index 2. -/
def is_dna_nr (dna_nr : Str) : Bool :=
  if dna_nr.length < 8 then false
  else
    (stripPrefixD dna_nr).length == 8 && (stripPrefixD dna_nr).getD 2 ' ' == '-'

example : is_dna_nr (str "01-12345") = true := by decide
example : is_dna_nr (str "D-01-12345") = true := by decide
example : is_dna_nr (str "1-345") = false := by decide

/-- `models::Sample` from `vquery/src/models.rs`. -/
structure VqSample where
  run : Str
  name : Str
  dna_nr : Str
  project : Str
  lims_id : Option Int
  primer_set : Option Str
  id : Int
  cells : Option Int
deriving DecidableEq, Repr

/-- `MatchStatus` from `vquery/src/vaultdb.rs`. -/
inductive MatchStatus where
  | None (reason : Str)
  | One (sample : VqSample)
  | Multiple (samples : List VqSample)
deriving DecidableEq, Repr

/-- The initial candidate pool: all samples of the given run. -/
def runPool (db : List VqSample) (run : Str) : List VqSample :=
  db.filter (fun s => s.run == run)

/-- Stage 1: exact LIMS-id equality, when a LIMS id is given. -/
def limsPool (pool : List VqSample) : Option Int → List VqSample
  | some l => pool.filter (fun s => s.lims_id == some l)
  | none => pool

/-- Stage 2: normalized DNA-number equality, when the given string
looks like a DNA number; `none` models the normalizer's panic. -/
def dnaPool (pool : List VqSample) : Option Str → Option (List VqSample)
  | some dn =>
    if is_dna_nr dn then
      (normalize_dna_nr_vq dn).map (fun ndn => pool.filter (fun s => s.dna_nr == ndn))
    else some pool
  | none => some pool

/-- Stage 3: the sample's primer set must be a substring of the given
value; samples without a primer set are dropped. -/
def primerPool (pool : List VqSample) : Option Str → List VqSample
  | some ps =>
    pool.filter (fun s =>
      match s.primer_set with
      | some sps => strContains ps sps
      | none => false)
  | none => pool

/-- Stage 4: either side a substring of the other. -/
def namePool (pool : List VqSample) : Option Str → List VqSample
  | some nm => pool.filter (fun s => strContains s.name nm || strContains nm s.name)
  | none => pool

/-- `match_samples` from `vquery/src/vaultdb.rs`; the outer `Option`
models the potential panic in the DNA stage, the `Except` is the Rust
`Result`. -/
def match_samples (db : List VqSample) (lims_id : Option Int)
    (dna_nr primer_set name : Option Str) (run : Str) :
    Option (Except Str MatchStatus) :=
  let c0 := runPool db run
  if c0 = [] then some (.ok (.None (str "No samples in specified run " ++ run)))
  else
    let c1 := limsPool c0 lims_id
    if c1 = [] then some (.error (str "No candidates left after LIMS filter"))
    else
      match dnaPool c1 dna_nr with
      | none => none
      | some c2 =>
        if c2 = [] then
          some (.ok (.None (str "Sample has passed LIMS filter but not dna_nr filter")))
        else
          let c3 := primerPool c2 primer_set
          if c3 = [] then
            some (.ok (.None
              (str "Candidates passed LIMS and DNA filter but not primer_set filter")))
          else
            match namePool c3 name with
            | [] => some (.ok (.None
                (str "Candidates passed LIMS, DNA and primer_set filters but not name filter")))
            | [s] => some (.ok (.One s))
            | s :: t :: rest => some (.ok (.Multiple (s :: t :: rest)))

instance {ε α : Type} [DecidableEq ε] [DecidableEq α] : DecidableEq (Except ε α) := fun x y =>
  match x, y with
  | .error e, .error f =>
    if h : e = f then isTrue (by rw [h]) else isFalse (by intro hh; cases hh; exact h rfl)
  | .ok a, .ok b =>
    if h : a = b then isTrue (by rw [h]) else isFalse (by intro hh; cases hh; exact h rfl)
  | .error e, .ok b => isFalse (by intro hh; cases hh)
  | .ok a, .error f => isFalse (by intro hh; cases hh)

/-- The run used in the claim's concrete scenario: exactly one sample,
LIMS id 555. -/
def sample555 : VqSample :=
  { run := str "runA", name := str "S1", dna_nr := str "01-00001",
    project := str "P", lims_id := some 555, primer_set := none,
    id := 1, cells := none }

example : match_samples [sample555] (some 555) none none none (str "runA") =
    some (.ok (.One sample555)) := by decide
example : match_samples [sample555] (some 999) none none none (str "runA") =
    some (.error (str "No candidates left after LIMS filter")) := by decide

/-!
## Claim C3 — cascade outcomes of `match_samples`
-/

/-- C3 (confirmed): `match_samples` returns a soft `None` when the run
has no samples; an empty pool after the LIMS-id stage is a hard `Err`;
an empty pool after the DNA, primer-set, or name stage is a soft
`None`; otherwise the final pool size decides `One` vs `Multiple`.  In
particular, a run holding exactly one sample with LIMS id 555 matched
against `limsId=555` yields `One`, and against `limsId=999` the hard
error. -/
theorem match_samples_cascade (db : List VqSample) (lims_id : Option Int)
    (dna_nr primer_set name : Option Str) (run : Str) :
    (runPool db run = [] →
      ∃ r, match_samples db lims_id dna_nr primer_set name run = some (.ok (.None r))) ∧
    (runPool db run ≠ [] → limsPool (runPool db run) lims_id = [] →
      ∃ e, match_samples db lims_id dna_nr primer_set name run = some (.error e)) ∧
    (runPool db run ≠ [] → limsPool (runPool db run) lims_id ≠ [] →
      dnaPool (limsPool (runPool db run) lims_id) dna_nr = some [] →
      ∃ r, match_samples db lims_id dna_nr primer_set name run = some (.ok (.None r))) ∧
    (∀ c2, runPool db run ≠ [] → limsPool (runPool db run) lims_id ≠ [] →
      dnaPool (limsPool (runPool db run) lims_id) dna_nr = some c2 → c2 ≠ [] →
      primerPool c2 primer_set = [] →
      ∃ r, match_samples db lims_id dna_nr primer_set name run = some (.ok (.None r))) ∧
    (∀ c2, runPool db run ≠ [] → limsPool (runPool db run) lims_id ≠ [] →
      dnaPool (limsPool (runPool db run) lims_id) dna_nr = some c2 → c2 ≠ [] →
      primerPool c2 primer_set ≠ [] →
      namePool (primerPool c2 primer_set) name = [] →
      ∃ r, match_samples db lims_id dna_nr primer_set name run = some (.ok (.None r))) ∧
    (∀ c2 s, runPool db run ≠ [] → limsPool (runPool db run) lims_id ≠ [] →
      dnaPool (limsPool (runPool db run) lims_id) dna_nr = some c2 → c2 ≠ [] →
      primerPool c2 primer_set ≠ [] →
      namePool (primerPool c2 primer_set) name = [s] →
      match_samples db lims_id dna_nr primer_set name run = some (.ok (.One s))) ∧
    (∀ c2 s t rest, runPool db run ≠ [] → limsPool (runPool db run) lims_id ≠ [] →
      dnaPool (limsPool (runPool db run) lims_id) dna_nr = some c2 → c2 ≠ [] →
      primerPool c2 primer_set ≠ [] →
      namePool (primerPool c2 primer_set) name = s :: t :: rest →
      match_samples db lims_id dna_nr primer_set name run =
        some (.ok (.Multiple (s :: t :: rest)))) ∧
    match_samples [sample555] (some 555) none none none (str "runA") =
      some (.ok (.One sample555)) ∧
    match_samples [sample555] (some 999) none none none (str "runA") =
      some (.error (str "No candidates left after LIMS filter")) := by
  refine ⟨?_, ?_, ?_, ?_, ?_, ?_, ?_, by decide, by decide⟩
  · intro h0
    exact ⟨str "No samples in specified run " ++ run, by simp [match_samples, h0]⟩
  · intro h0 h1
    exact ⟨str "No candidates left after LIMS filter", by simp [match_samples, h0, h1]⟩
  · intro h0 h1 h2
    exact ⟨str "Sample has passed LIMS filter but not dna_nr filter",
      by simp [match_samples, h0, h1, h2]⟩
  · intro c2 h0 h1 h2 h2' h3
    exact ⟨str "Candidates passed LIMS and DNA filter but not primer_set filter",
      by simp [match_samples, h0, h1, h2, h2', h3]⟩
  · intro c2 h0 h1 h2 h2' h3 h4
    exact ⟨str "Candidates passed LIMS, DNA and primer_set filters but not name filter",
      by simp [match_samples, h0, h1, h2, h2', h3, h4]⟩
  · intro c2 s h0 h1 h2 h2' h3 h4
    simp [match_samples, h0, h1, h2, h2', h3, h4]
  · intro c2 s t rest h0 h1 h2 h2' h3 h4
    simp [match_samples, h0, h1, h2, h2', h3, h4]

/-- Witness for C3: the cascade applied to the one-sample run, all
optional identifiers absent, reaching the `One` outcome. -/
theorem match_samples_cascade_witness :
    match_samples [sample555] none none none none (str "runA") =
      some (.ok (.One sample555)) :=
  (match_samples_cascade [sample555] none none none none (str "runA")).2.2.2.2.2.1
    [sample555] sample555 (by decide) (by decide) (by decide) (by decide)
    (by decide) (by decide)

/-!
## Sample-sheet export — `src/src/samplesheet.rs`

`models::Sample` of the `src/` crate has nullable `dna_nr`/`project`.
A `SampleSheetEntry` wraps a sample with the extra columns imported
from an external spreadsheet.  `write_csv` and `write_xlsx` compute
each basic-column cell with the same `overrides`-then-`match` logic,
factored out below as `basicValue`.
-/

/-- `models::Sample` from `src/src/models.rs`. -/
structure SSample where
  run : Str
  name : Str
  dna_nr : Option Str
  project : Option Str
  lims_id : Option Int
  primer_set : Option Str
  id : Int
  cells : Option Int
deriving DecidableEq, Repr

/-- `SampleSheetEntry` from `src/src/samplesheet.rs`; the extra-columns
`HashMap` is modelled as an association list with unique keys. -/
structure SampleSheetEntry where
  model : SSample
  extra_cols : List (Str × Str)
deriving DecidableEq, Repr

/-- `HashMap::get` on the association-list model. -/
def getCol (extra : List (Str × Str)) (k : Str) : Option Str :=
  match extra with
  | [] => none
  | (k', v) :: t => if k' == k then some v else getCol t k

/-- Rust `i64`/`i32` `to_string()`. -/
def intToStr (i : Int) : Str :=
  if i < 0 then '-' :: natToStr i.natAbs else natToStr i.natAbs

/-- The fixed basic column set of the export. -/
def basicHeader : List Str :=
  [str "Sample", str "run", str "DNA nr", str "primer set", str "project",
   str "LIMS ID", str "cells"]

/-- `get_unique_run_id`: first underscore-delimited token of the run
name, a dash, and the last dash-delimited token of the run name. -/
def get_unique_run_id (e : SampleSheetEntry) : Str :=
  (splitOnChar '_' e.model.run).headD [] ++
    '-' :: (splitOnChar '-' e.model.run).getLastD []

/-- `has_multiple_runs`: more than one distinct run among the entries. -/
def has_multiple_runs (entries : List SampleSheetEntry) : Bool :=
  ((entries.map (fun e => e.model.run)).dedup).length > 1

/-- The per-cell value of a basic column in `write_csv`/`write_xlsx`:
the override check, then the Rust `match` over the column name. -/
def basicValue (overrides : List Str) (multi : Bool) (e : SampleSheetEntry)
    (col : Str) : Str :=
  if overrides.any (fun x => x == col) then (getCol e.extra_cols col).getD []
  else if col = str "Sample" then
    (if multi then get_unique_run_id e ++ '-' :: e.model.name else e.model.name)
  else if col = str "run" then e.model.run
  else if col = str "DNA nr" then e.model.dna_nr.getD []
  else if col = str "primer set" then e.model.primer_set.getD []
  else if col = str "project" then e.model.project.getD []
  else if col = str "LIMS ID" then (e.model.lims_id.map intToStr).getD []
  else if col = str "cells" then
    match e.model.cells with
    | some c => intToStr c
    | none => (getCol e.extra_cols (str "cells")).getD []
  else []

/-- Sorting predicate for header names (Rust sorts the collected extra
keys with `sort_unstable` and deduplicates). -/
def strLe : Str → Str → Bool
  | [], _ => true
  | _ :: _, [] => false
  | a :: as', b :: bs => if a == b then strLe as' bs else decide (a.toNat < b.toNat)

def insertSorted {α : Type} (le : α → α → Bool) (x : α) : List α → List α
  | [] => [x]
  | y :: t => if le x y then x :: y :: t else y :: insertSorted le x t

def insertionSort {α : Type} (le : α → α → Bool) : List α → List α
  | [] => []
  | x :: t => insertSorted le x (insertionSort le t)

/-- The sorted, deduplicated extra-column headers, with the basic
columns removed. -/
def allSansBasic (entries : List SampleSheetEntry) : List Str :=
  ((insertionSort strLe
      ((entries.map (fun e => e.extra_cols.map Prod.fst)).flatten)).dedup).filter
    (fun h => !(basicHeader.any (fun b => b == h)))

/-- Separator-joined concatenation, as the `write_csv` row loop emits. -/
def joinSep (sep : Str) : List Str → Str
  | [] => []
  | [x] => x
  | x :: y :: t => x ++ sep ++ joinSep sep (y :: t)

/-- One CSV data row: basic columns then the extra columns. -/
def csvRow (overrides : List Str) (multi : Bool) (sansBasic : List Str)
    (e : SampleSheetEntry) : List Str :=
  basicHeader.map (basicValue overrides multi e) ++
    sansBasic.map (fun c => (getCol e.extra_cols c).getD [])

/-- `SampleSheet::write_csv`: header line, then one line per entry
(`write_xlsx` emits the same cell grid into a worksheet). -/
def write_csv (entries : List SampleSheetEntry) (sep : Str)
    (overrides : List Str) : Str :=
  let sansBasic := allSansBasic entries
  let multi := has_multiple_runs entries
  joinSep sep (basicHeader ++ sansBasic) ++ '\n' ::
    (entries.map (fun e => joinSep sep (csvRow overrides multi sansBasic e) ++ ['\n'])).flatten

/-- What the spec's sentence prescribes for a basic-column cell, for
comparison with `basicValue`: the extra-columns value iff the column
is in `overrides`, else the canonical sample field, empty if absent. -/
def specExportValue (overrides : List Str) (e : SampleSheetEntry) (col : Str) : Str :=
  if overrides.any (fun x => x == col) then (getCol e.extra_cols col).getD []
  else if col = str "Sample" then e.model.name
  else if col = str "run" then e.model.run
  else if col = str "DNA nr" then e.model.dna_nr.getD []
  else if col = str "primer set" then e.model.primer_set.getD []
  else if col = str "project" then e.model.project.getD []
  else if col = str "LIMS ID" then (e.model.lims_id.map intToStr).getD []
  else if col = str "cells" then (e.model.cells.map intToStr).getD []
  else []

/-- An entry with no stored cell count but a spreadsheet `cells`
column: the export falls back to the spreadsheet value. -/
def entryCells : SampleSheetEntry :=
  { model := { run := str "r1", name := str "S1", dna_nr := none, project := none,
               lims_id := none, primer_set := none, id := 1, cells := none },
    extra_cols := [(str "cells", str "5")] }

example : basicValue [] false entryCells (str "cells") = str "5" := by decide
example : specExportValue [] entryCells (str "cells") = [] := by decide

/-!
## Claim C7 — export override selection
-/

/-- C7 counterexample: with no overrides, an entry whose canonical
cell count is absent but whose extra-columns map holds `cells = "5"`
exports `"5"`, not the empty string the claim prescribes for an
absent canonical field. -/
theorem export_cells_counterexample :
    basicValue [] false entryCells (str "cells") ≠
      specExportValue [] entryCells (str "cells") := by decide

/-- C7 (amended): for every basic column the exported cell value is
the extra-columns value iff the column is in `overrides`, and
otherwise the canonical sample field (empty when absent) — except that
the `cells` column falls back to the extra-columns value when the
canonical cell count is absent, and the `Sample` column is prefixed
with the unique run id when the sheet spans multiple runs.  In
particular, whenever `project` is in `overrides` the project cell
comes from the extra-columns map. -/
theorem export_override_selection (overrides : List Str) (multi : Bool)
    (e : SampleSheetEntry) :
    (∀ col, col ∈ basicHeader → overrides.any (fun x => x == col) = true →
      basicValue overrides multi e col = (getCol e.extra_cols col).getD []) ∧
    (∀ col, col ∈ basicHeader → overrides.any (fun x => x == col) = false →
      (col = str "Sample" → multi = false) → col ≠ str "cells" →
      basicValue overrides multi e col = specExportValue overrides e col) ∧
    (overrides.any (fun x => x == str "cells") = false → e.model.cells = none →
      basicValue overrides multi e (str "cells") =
        (getCol e.extra_cols (str "cells")).getD []) ∧
    (overrides.any (fun x => x == str "Sample") = false → multi = true →
      basicValue overrides multi e (str "Sample") =
        get_unique_run_id e ++ '-' :: e.model.name) ∧
    (overrides.any (fun x => x == str "project") = true →
      basicValue overrides multi e (str "project") =
        (getCol e.extra_cols (str "project")).getD []) := by
  refine ⟨?_, ?_, ?_, ?_, ?_⟩
  · intro col hcol hov
    rw [basicValue, if_pos hov]
  · intro col hcol hov hSample hcells
    fin_cases hcol
    · rw [hSample rfl]
      simp only [basicValue, specExportValue, hov, Bool.false_eq_true, if_false]
      rfl
    · simp only [basicValue, specExportValue, hov, Bool.false_eq_true, if_false]
      rfl
    · simp only [basicValue, specExportValue, hov, Bool.false_eq_true, if_false]
      rfl
    · simp only [basicValue, specExportValue, hov, Bool.false_eq_true, if_false]
      rfl
    · simp only [basicValue, specExportValue, hov, Bool.false_eq_true, if_false]
      rfl
    · simp only [basicValue, specExportValue, hov, Bool.false_eq_true, if_false]
      rfl
    · exact absurd rfl hcells
  · intro hov hcells
    simp only [basicValue, hov, Bool.false_eq_true, if_false, hcells]
    rfl
  · intro hov hmulti
    simp only [basicValue, hov, hmulti, Bool.false_eq_true, if_false]
    rfl
  · intro hov
    rw [basicValue, if_pos hov]

/-- Witness for C7: overriding `project` on a concrete entry takes the
spreadsheet value. -/
theorem export_override_selection_witness :
    basicValue [str "project"] false
      { model := { run := str "r1", name := str "S1", dna_nr := none,
                   project := some (str "dbproj"), lims_id := none,
                   primer_set := none, id := 1, cells := none },
        extra_cols := [(str "project", str "ssproj")] } (str "project") =
      str "ssproj" :=
  (export_override_selection [str "project"] false _).2.2.2.2 (by decide)

/-!
## `query` — free-text search with typed filters

From `vquery/src/vaultdb.rs`.  The SQL statement is built by string
concatenation: a recognized numeric filter key `k` with value `v` is
emitted as `" AND {k}={v}"`, so the key `cells>` produces the SQL
predicate `cells>=v` (greater-or-EQUAL — the appended `=` merges with
the `>` of the key); `cells<` likewise produces `cells<=v`.  LIKE keys
are emitted as `" AND {k} ILIKE '{v}'"`.  Unrecognized keys are
dropped with a warning.  The filters and the `LIMIT` are placed inside
the id subquery; the outer query then returns every (sample, fastq)
pair of the selected ids, grouped by sample.  The embedding returns
`none` when the interpolated SQL would be malformed (a numeric value
that is not an integer literal, or a quote inside a LIKE value). -/

/-- `models::Fastq`. -/
structure Fastq where
  filename : Str
  sample_id : Int
deriving DecidableEq, Repr

/-- The two tables the query touches. -/
structure QDb where
  samples : List VqSample
  fastqs : List Fastq
deriving Repr

/-- Fuel-driven core of `likeMatch`; every step shrinks
`pattern.length + text.length`, so the fuel below never runs out. -/
def likeMatchAux : Nat → Str → Str → Bool
  | 0, _, _ => false
  | fuel + 1, p, t =>
    match p, t with
    | [], [] => true
    | [], _ :: _ => false
    | '%' :: ps, [] => likeMatchAux fuel ps []
    | '%' :: ps, c :: ts =>
      likeMatchAux fuel ps (c :: ts) || likeMatchAux fuel ('%' :: ps) ts
    | _ :: _, [] => false
    | p1 :: ps, c :: ts =>
      (p1 == '_' || charLower p1 == charLower c) && likeMatchAux fuel ps ts

/-- Postgres `ILIKE`: `%` matches any sequence, `_` any one character,
letters case-insensitively (ASCII folding). -/
def likeMatch (p t : Str) : Bool := likeMatchAux (p.length + t.length + 1) p t

example : likeMatch (str "%S1%") (str "data/S1_L001.fastq.gz") = true := by decide
example : likeMatch (str "%s1%") (str "data/S1_L001.fastq.gz") = true := by decide
example : likeMatch (str "%S2%") (str "data/S1_L001.fastq.gz") = false := by decide

/-- The six recognized numeric filter keys. -/
def isNumKey (k : Str) : Bool :=
  (k == str "cells" || k == str "cells<" || k == str "cells>") ||
    (k == str "lims_id" || k == str "lims_id<" || k == str "lims_id>")

/-- The six recognized substring/LIKE filter keys. -/
def isLikeKey (k : Str) : Bool :=
  k == str "run" || k == str "name" || k == str "dna_nr" ||
    k == str "project" || k == str "primer_set" || k == str "filename"

/-- The comparison the concatenated SQL text performs: the keys without
a trailing comparison sign test equality, `...<` keys test `<=` and
`...>` keys test `>=` (because of the appended `=`); a NULL column
never satisfies a comparison. -/
def numCmp (k : Str) (col : Option Int) (n : Int) : Bool :=
  match col with
  | none => false
  | some c =>
    if k == str "cells" || k == str "lims_id" then c == n
    else if k == str "cells<" || k == str "lims_id<" then c ≤ n
    else n ≤ c

/-- One recognized filter predicate evaluated on a subquery join row. -/
def filterHolds (k v : Str) (s : VqSample) (fname : Str) : Bool :=
  if k == str "cells" || k == str "cells<" || k == str "cells>" then
    match parseI64 v with
    | some n => numCmp k s.cells n
    | none => false
  else if k == str "lims_id" || k == str "lims_id<" || k == str "lims_id>" then
    match parseI64 v with
    | some n => numCmp k s.lims_id n
    | none => false
  else if k == str "run" then likeMatch v s.run
  else if k == str "name" then likeMatch v s.name
  else if k == str "dna_nr" then likeMatch v s.dna_nr
  else if k == str "project" then likeMatch v s.project
  else if k == str "primer_set" then
    match s.primer_set with
    | some p => likeMatch v p
    | none => false
  else if k == str "filename" then likeMatch v fname
  else true

/-- Well-formedness of the interpolated SQL: recognized numeric values
must be integer literals, LIKE values must not smuggle a quote. -/
def filtersOk (filters : List (Str × Str)) : Bool :=
  filters.all (fun kv =>
    if isNumKey kv.1 then (parseI64 kv.2).isSome
    else if isLikeKey kv.1 then !(kv.2.any (fun c => c == '\''))
    else true)

/-- A subquery join row (sample × fastq filename) satisfying the
needle and every filter. -/
def subRowOk (needle : Str) (filters : List (Str × Str)) (s : VqSample)
    (fname : Str) : Bool :=
  likeMatch needle fname && filters.all (fun kv => filterHolds kv.1 kv.2 s fname)

/-- `query` from `vquery/src/vaultdb.rs`: the id subquery (with the
filters and LIMIT inside), then the outer join grouped by sample. -/
def query (db : QDb) (needle : Str) (filters : List (Str × Str))
    (limit : Option Nat) : Option (List (VqSample × List Str)) :=
  if !filtersOk filters then none
  else
    let ids := (db.samples.filter (fun s =>
      db.fastqs.any (fun f => f.sample_id == s.id &&
        subRowOk needle filters s f.filename))).map (fun s => s.id)
    let idsLim := match limit with | some n => ids.take n | none => ids
    some ((db.samples.filter (fun s => idsLim.any (fun i => i == s.id))).map
      (fun s => (s, (db.fastqs.filter (fun f => f.sample_id == s.id)).map
        (fun f => f.filename))))

/-- Boolean form of "the stored cell count is at least `v`". -/
def cellsAtLeast (s : VqSample) (v : Int) : Bool :=
  match s.cells with
  | some c => v ≤ c
  | none => false

/-- A stored sample with exactly 1000 cells and one FASTQ. -/
def s1000 : VqSample :=
  { run := str "r", name := str "S1", dna_nr := str "01-00001",
    project := str "P", lims_id := none, primer_set := none,
    id := 1, cells := some 1000 }

def qdb1000 : QDb := ⟨[s1000], [⟨str "x.fastq.gz", 1⟩]⟩

example : query qdb1000 (str "%") [(str "cells>", str "999")] none =
    some [(s1000, [str "x.fastq.gz"])] := by decide

/-!
## Claim C6 — strict numeric query filters
-/

/-- C6 counterexample: with filter `cells>` = 1000 the query returns
the sample whose stored cell count is exactly 1000 — the generated SQL
is `cells>=1000`, not a strict comparison. -/
theorem query_cells_counterexample :
    query qdb1000 (str "%") [(str "cells>", str "1000")] none =
      some [(s1000, [str "x.fastq.gz"])] ∧
    s1000.cells = some 1000 := by decide

/-- Evaluating the recognized `cells>` filter: it accepts exactly the
samples whose cell count is at least the filter value. -/
lemma filterHolds_cells_gt {vstr : Str} {v : Int} (hv : parseI64 vstr = some v)
    (s : VqSample) (fn : Str) (h : filterHolds (str "cells>") vstr s fn = true) :
    cellsAtLeast s v = true := by
  rw [filterHolds, if_pos (by decide), hv] at h
  rcases hc : s.cells with - | c
  · have h' : numCmp (str "cells>") none v = true := by
      rw [← hc]; exact h
    simp [numCmp] at h'
  · have h' : numCmp (str "cells>") (some c) v = true := by
      rw [← hc]; exact h
    rw [numCmp] at h'
    rw [if_neg (by decide), if_neg (by decide)] at h'
    have hgoal : cellsAtLeast s v = decide (v ≤ c) := by
      rw [cellsAtLeast, hc]
    rw [hgoal]
    exact h'

/-- C6 (amended): a query with filter key `cells>` and value `v`
returns only samples whose stored cell count is at least `v` (the
concatenated `=` turns the comparison into `>=`), regardless of which
FASTQ filenames the free-text fragment matched; and an unrecognized
filter key is dropped — the query result is unchanged — rather than
producing an error. -/
theorem query_cells_filter (db : QDb) (needle vstr : Str)
    (filters : List (Str × Str)) (limit : Option Nat) (v : Int)
    (res : List (VqSample × List Str)) :
    ((db.samples.map VqSample.id).Nodup →
      (str "cells>", vstr) ∈ filters → parseI64 vstr = some v →
      query db needle filters limit = some res →
      ∀ s fns, (s, fns) ∈ res → cellsAtLeast s v = true) ∧
    (∀ k w : Str, isNumKey k = false → isLikeKey k = false →
      query db needle ((k, w) :: filters) limit = query db needle filters limit) := by
  constructor
  · intro hnodup hmem hv hq s fns hres
    rw [query] at hq
    split at hq
    · exact absurd hq (by simp)
    · simp only [Option.some.injEq] at hq
      subst hq
      rw [List.mem_map] at hres
      obtain ⟨s₀, hs₀, hg⟩ := hres
      have hs₀s : s₀ = s := congrArg Prod.fst hg
      subst hs₀s
      rw [List.mem_filter] at hs₀
      obtain ⟨hsmem, hP⟩ := hs₀
      rw [List.any_eq_true] at hP
      obtain ⟨i, hiLim, hieq⟩ := hP
      rw [beq_iff_eq] at hieq
      subst hieq
      have hiIds : s₀.id ∈ (db.samples.filter (fun t =>
          db.fastqs.any (fun f => f.sample_id == t.id &&
            subRowOk needle filters t f.filename))).map (fun t => t.id) := by
        rcases limit with - | n
        · exact hiLim
        · exact List.take_subset n _ hiLim
      rw [List.mem_map] at hiIds
      obtain ⟨s', hs', hid⟩ := hiIds
      rw [List.mem_filter] at hs'
      obtain ⟨hs'mem, hQ⟩ := hs'
      have hss : s' = s₀ :=
        List.inj_on_of_nodup_map hnodup hs'mem hsmem hid
      subst hss
      rw [List.any_eq_true] at hQ
      obtain ⟨f, -, hf⟩ := hQ
      rw [Bool.and_eq_true] at hf
      have hsub := hf.2
      rw [subRowOk, Bool.and_eq_true, List.all_eq_true] at hsub
      have hF : filterHolds (str "cells>") vstr s' f.filename = true :=
        hsub.2 (str "cells>", vstr) hmem
      exact filterHolds_cells_gt hv s' f.filename hF
  · intro k w hk hl
    have hk' := hk
    have hl' := hl
    simp only [isNumKey, Bool.or_eq_false_iff] at hk'
    simp only [isLikeKey, Bool.or_eq_false_iff] at hl'
    obtain ⟨⟨⟨hk1, hk2⟩, hk3⟩, ⟨hk4, hk5⟩, hk6⟩ := hk'
    obtain ⟨⟨⟨⟨⟨hl1, hl2⟩, hl3⟩, hl4⟩, hl5⟩, hl6⟩ := hl'
    have hFtrue : ∀ s fn, filterHolds k w s fn = true := by
      intro s fn
      rw [filterHolds]
      simp only [hk1, hk2, hk3, hk4, hk5, hk6, hl1, hl2, hl3, hl4, hl5, hl6,
        Bool.or_self, Bool.or_false, Bool.false_or, Bool.false_eq_true, if_false]
    have hhead : (if isNumKey k then (parseI64 w).isSome
        else if isLikeKey k then !(w.any (fun c => c == '\'')) else true) = true := by
      simp only [hk, hl, Bool.false_eq_true, if_false]
    have hok : filtersOk ((k, w) :: filters) = filtersOk filters := by
      simp only [filtersOk, List.all_cons]
      rw [hhead, Bool.true_and]
    have hsub : ∀ s fn, subRowOk needle ((k, w) :: filters) s fn =
        subRowOk needle filters s fn := by
      intro s fn
      simp only [subRowOk, List.all_cons, hFtrue, Bool.true_and]
    simp only [query, hok, hsub]

/-- Witness for C6: the amended theorem applied to the concrete store
with a 1000-cell sample and the filter value 999. -/
theorem query_cells_filter_witness : cellsAtLeast s1000 999 = true := by
  have h := (query_cells_filter qdb1000 (str "%") (str "999")
    [(str "cells>", str "999")] none 999 [(s1000, [str "x.fastq.gz"])]).1
    (by decide) (by decide) (by decide) (by decide)
  exact h s1000 [str "x.fastq.gz"] (by decide)

/-!
## Run ingestion storage — `flush`/`update` from `vquery/src/vaultdb.rs`

`main.rs`'s `update` command runs `vaultdb::flush` (which empties the
`fastq`, `sample` and `run` tables inside one transaction) and then
`vaultdb::update`, whose transaction inserts, for every successfully
parsed run: the run row, its sample rows (each sample's `run` field
set to the run's name, ids generated by the store) and their fastq
rows.  A failed insert aborts and rolls back the whole transaction;
the only statically possible failure with an empty store is the `run`
primary-key violation on duplicate run names, modelled below.  The
parsed-run and row types follow `src/src/run.rs` / `src/src/models.rs`.
-/

/-- `models::NewSample` from `src/src/models.rs`. -/
structure NewSample where
  run : Str
  name : Str
  dna_nr : Option Str
  project : Option Str
  lims_id : Option Int
  primer_set : Option Str
  cells : Option Int
deriving DecidableEq, Repr

instance : Inhabited NewSample :=
  ⟨{ run := [], name := [], dna_nr := none, project := none, lims_id := none,
     primer_set := none, cells := none }⟩

/-- The parsed `Run` value from `src/src/run.rs`. -/
structure ParsedRun where
  date : YMD
  name : Str
  path : Str
  samples : List (NewSample × List Str)
  investigator : Str
  assay : Str
  description : Str
  chemistry : Str
deriving DecidableEq, Repr

/-- `models::Run` (a `run` table row). -/
structure RunRow where
  name : Str
  date : YMD
  assay : Str
  chemistry : Str
  description : Option Str
  investigator : Str
  path : Str
deriving DecidableEq, Repr

/-- `Run::to_schema_run`. -/
def to_schema_run (r : ParsedRun) : RunRow :=
  { name := r.name, date := r.date, assay := r.assay, chemistry := r.chemistry,
    description := if r.description = [] then none else some r.description,
    investigator := r.investigator, path := r.path }

/-- A `sample` table row: the inserted `NewSample` plus its generated id. -/
structure SampleRow where
  id : Nat
  sample : NewSample
deriving DecidableEq, Repr

/-- A `fastq` table row. -/
structure FastqRow where
  filename : Str
  sample_id : Nat
deriving DecidableEq, Repr

/-- The relational store: the three tables and the id sequence. -/
structure Db where
  runs : List RunRow
  samples : List SampleRow
  fastqs : List FastqRow
  nextId : Nat
deriving DecidableEq, Repr

/-- `vaultdb::flush`: delete all fastq, sample and run rows. -/
def flush (db : Db) : Db := { runs := [], samples := [], fastqs := [], nextId := db.nextId }

/-- The sample models a run contributes: its parsed samples with the
`run` foreign key set to the run's name (`a.run = new_run.name`). -/
def runSampleModels (r : ParsedRun) : List NewSample :=
  r.samples.map (fun p => { p.1 with run := r.name })

/-- One iteration of `update`'s transaction loop: insert the run row
(failing on a duplicate run name, the primary key), then the samples
with generated ids, then their fastqs. -/
def ingestRun (db : Db) (r : ParsedRun) : Except Str Db :=
  if db.runs.any (fun q => q.name == r.name) then
    .error (str "Could not insert run")
  else
    let newRun := to_schema_run r
    let smps := r.samples.map (fun p => ({ p.1 with run := r.name }, p.2))
    let sampleRows := smps.enum.map (fun q => SampleRow.mk (db.nextId + q.1) q.2.1)
    let fastqRows :=
      (smps.enum.map (fun q => q.2.2.map (fun f => FastqRow.mk f (db.nextId + q.1)))).flatten
    .ok { runs := db.runs ++ [newRun],
          samples := db.samples ++ sampleRows,
          fastqs := db.fastqs ++ fastqRows,
          nextId := db.nextId + smps.length }

/-- `vaultdb::update`'s transaction: ingest every parsed run; an error
rolls the whole transaction back (the input `db` is left untouched). -/
def updateDb (db : Db) (runs : List ParsedRun) : Except Str Db :=
  runs.foldlM ingestRun db

/-- The `update` subcommand from `src/src/main.rs`: `flush` then `update`. -/
def update_cmd (db : Db) (runs : List ParsedRun) : Except Str Db :=
  updateDb (flush db) runs

/-!
## Claim C2 — re-ingestion is a full replace
-/

lemma enum_map_sample (nid : Nat) (l : List (NewSample × List Str)) :
    (l.enum.map (fun q => SampleRow.mk (nid + q.1) q.2.1)).map SampleRow.sample =
      l.map Prod.fst := by
  rw [List.map_map]
  have h2 : (l.enum.map fun q => q.2.1) = l.map Prod.fst := by
    have h0 : l.enum.map Prod.snd = l := List.enum_map_snd l
    calc l.enum.map (fun q => q.2.1)
        = (l.enum.map Prod.snd).map Prod.fst := by rw [List.map_map]; rfl
      _ = l.map Prod.fst := by rw [h0]
  calc l.enum.map (SampleRow.sample ∘ fun q => SampleRow.mk (nid + q.1) q.2.1)
      = l.enum.map (fun q => q.2.1) := by rfl
    _ = l.map Prod.fst := h2

lemma ingestRun_ok {db : Db} {r : ParsedRun} (h : r.name ∉ db.runs.map RunRow.name) :
    ∃ d, ingestRun db r = .ok d ∧ d.runs = db.runs ++ [to_schema_run r] ∧
      d.samples.map SampleRow.sample =
        db.samples.map SampleRow.sample ++ runSampleModels r := by
  have hguard : db.runs.any (fun q => q.name == r.name) = false := by
    rcases hval : db.runs.any (fun q => q.name == r.name) with - | -
    · rfl
    · rw [List.any_eq_true] at hval
      obtain ⟨q, hq, hbeq⟩ := hval
      rw [beq_iff_eq] at hbeq
      exact absurd (hbeq ▸ List.mem_map_of_mem RunRow.name hq) h
  rw [ingestRun]
  simp only [hguard, Bool.false_eq_true, if_false]
  refine ⟨_, rfl, rfl, ?_⟩
  rw [List.map_append, enum_map_sample]
  rw [runSampleModels, List.map_map]
  rfl

lemma updateDb_ok : ∀ (runs : List ParsedRun) (db : Db),
    (db.runs.map RunRow.name ++ runs.map ParsedRun.name).Nodup →
    ∃ d, updateDb db runs = .ok d ∧
      d.runs = db.runs ++ runs.map to_schema_run ∧
      d.samples.map SampleRow.sample =
        db.samples.map SampleRow.sample ++ (runs.map runSampleModels).flatten := by
  intro runs
  induction runs with
  | nil => intro db h; exact ⟨db, rfl, by simp, by simp⟩
  | cons r rest ih =>
    intro db h
    have hnotmem : r.name ∉ db.runs.map RunRow.name := by
      intro hmem
      have hdisj := (List.nodup_append.mp h).2.2
      exact hdisj hmem (by simp)
    obtain ⟨d1, hd1, hruns1, hsmp1⟩ := ingestRun_ok hnotmem
    have hnext : (d1.runs.map RunRow.name ++ rest.map ParsedRun.name).Nodup := by
      rw [hruns1, List.map_append, List.append_assoc]
      have hname : (to_schema_run r).name = r.name := rfl
      simpa [hname] using h
    obtain ⟨d, hd, hruns, hsmp⟩ := ih d1 hnext
    refine ⟨d, ?_, ?_, ?_⟩
    · rw [updateDb, List.foldlM_cons, hd1]
      simpa [updateDb] using hd
    · rw [hruns, hruns1, List.map_cons, List.append_assoc]
      rfl
    · rw [hsmp, hsmp1, List.map_cons, List.flatten_cons, List.append_assoc]

lemma filter_name_count {L : List RunRow} {nm : Str}
    (hnodup : (L.map RunRow.name).Nodup) (hmem : nm ∈ L.map RunRow.name) :
    (L.filter (fun q => q.name == nm)).length = 1 := by
  induction L with
  | nil => simp at hmem
  | cons q t ih =>
    rw [List.map_cons, List.nodup_cons] at hnodup
    rw [List.map_cons, List.mem_cons] at hmem
    by_cases hq : q.name = nm
    · subst hq
      rw [List.filter_cons_of_pos (by simp)]
      have ht : t.filter (fun p => p.name == q.name) = [] := by
        rw [List.filter_eq_nil_iff]
        intro p hp hbeq
        rw [beq_iff_eq] at hbeq
        exact hnodup.1 (hbeq ▸ List.mem_map_of_mem RunRow.name hp)
      rw [ht]
      rfl
    · rcases hmem with hmem | hmem
      · exact absurd hmem.symm hq
      · rw [List.filter_cons_of_neg (by simp [hq])]
        exact ih hnodup.2 hmem

/-- C2 (confirmed): re-ingesting the same parsed run set (with
pairwise-distinct run names) twice leaves the store holding exactly
the runs and samples of the second ingestion: every previously stored
row for a run name is deleted (`flush` inside the `update` command
empties the tables before the transactional re-insert), the run table
equals the newly parsed runs, the sample table equals exactly the
newly parsed samples (never merged or duplicated), and each ingested
run name has exactly one run row. -/
theorem reingest_replaces (db db1 db2 : Db) (runs : List ParsedRun) (nm : Str)
    (hnodup : (runs.map ParsedRun.name).Nodup)
    (h1 : update_cmd db runs = .ok db1)
    (h2 : update_cmd db1 runs = .ok db2) :
    db2.runs = runs.map to_schema_run ∧
    db2.samples.map SampleRow.sample = (runs.map runSampleModels).flatten ∧
    (nm ∈ runs.map ParsedRun.name →
      (db2.runs.filter (fun q => q.name == nm)).length = 1) := by
  obtain ⟨d, hd, hruns, hsmp⟩ := updateDb_ok runs (flush db1) (by simpa [flush] using hnodup)
  rw [update_cmd, hd] at h2
  simp only [Except.ok.injEq] at h2
  subst h2
  simp only [flush, List.map_nil, List.nil_append] at hruns hsmp
  refine ⟨hruns, hsmp, ?_⟩
  intro hmem
  apply filter_name_count
  · rw [hruns, List.map_map]
    exact hnodup
  · rw [hruns, List.map_map]
    exact hmem

/-- A concrete one-sample parsed run for the re-ingestion witness. -/
def r1 : ParsedRun :=
  { date := ⟨2021, 8, 2⟩, name := str "210802_M1", path := str "/ngs/2021/08/210802_M1",
    samples := [({ run := [], name := str "S1", dna_nr := none, project := none,
                   lims_id := none, primer_set := none, cells := none },
                 [str "data_P/S1_S1_L001_R1_001.fastq.gz"])],
    investigator := str "I", assay := str "A", description := [], chemistry := str "C" }

/-- The store after the first ingestion of `r1` into an empty store. -/
def dbA : Db :=
  { runs := [to_schema_run r1],
    samples := [⟨0, { run := r1.name, name := str "S1", dna_nr := none, project := none,
                      lims_id := none, primer_set := none, cells := none }⟩],
    fastqs := [⟨str "data_P/S1_S1_L001_R1_001.fastq.gz", 0⟩],
    nextId := 1 }

/-- The store after re-ingesting `r1`. -/
def dbB : Db :=
  { runs := [to_schema_run r1],
    samples := [⟨1, { run := r1.name, name := str "S1", dna_nr := none, project := none,
                      lims_id := none, primer_set := none, cells := none }⟩],
    fastqs := [⟨str "data_P/S1_S1_L001_R1_001.fastq.gz", 1⟩],
    nextId := 2 }

/-- Witness for C2: ingesting `r1` twice from an empty store leaves
exactly one `run` row named `210802_M1`. -/
theorem reingest_replaces_witness :
    (dbB.runs.filter (fun q => q.name == str "210802_M1")).length = 1 :=
  (reingest_replaces ⟨[], [], [], 0⟩ dbA dbB [r1] (str "210802_M1")
    (by decide) (by decide) (by decide)).2.2 (by decide)

/-!
## FASTQ assignment — `src/src/run.rs`

`assign_fastqs` sorts the samples by descending name length (the Rust
`sort_unstable_by_key` + `reverse` leaves the tie order unspecified;
the embedding fixes one), assigns each sample all files matched by
`match_fastq`, blanks matched entries in place, and finally recovers
orphan samples from the remaining non-blank files via
`parse_from_fastq`.  The regexes `RE_NAME`, `RE_DNA` and `RE_PRIMER`
are implemented directly with leftmost-match searches (`.` excludes a
newline, as in the `regex` crate); `parse_samplename` calls the
`Option`-returning `normalize_dna_nr`, whose `unwrap` panic
propagates, and `parse_from_fastq` `unwrap()`s the path components,
so both embed as `Option`. -/

/-- `match_fastq`: DNA number and primer set when both present, DNA
number alone when only it is, otherwise the sample name. -/
def match_fastq (sample : NewSample) (fastq : Str) : Bool :=
  match sample.dna_nr with
  | some dna_nr =>
    match sample.primer_set with
    | some primer_set => strContains fastq dna_nr && strContains fastq primer_set
    | none => strContains fastq dna_nr
  | none => strContains fastq sample.name

/-- The `RE_DNA` body `\d\d-\d{3,}` anchored at the current position
(greedy trailing digit run). -/
def dnaAt (s : Str) : Option Str :=
  match s with
  | c1 :: c2 :: '-' :: rest =>
    if isDig c1 && isDig c2 then
      if 3 ≤ (rest.takeWhile isDig).length then
        some (c1 :: c2 :: '-' :: rest.takeWhile isDig)
      else none
    else none
  | _ => none

/-- Leftmost `RE_DNA` capture: the optional `D-` prefix lies outside
the capture group and never changes which group position is leftmost. -/
def findDna : Str → Option Str
  | [] => none
  | c :: rest =>
    match dnaAt (c :: rest) with
    | some cap => some cap
    | none => findDna rest

example : findDna (str "D-21-12345_IGH") = some (str "21-12345") := by decide
example : findDna (str "Sample_07-333") = some (str "07-333") := by decide
example : findDna (str "Sample_7-333") = none := by decide

/-- The lazy `.*?` before `(_|$)` in `RE_PRIMER`: the shortest
newline-free extension up to the next underscore or the end. -/
def primerExt : Str → Option Str
  | [] => some []
  | c :: rest =>
    if c = '_' then some []
    else if c = '\n' then none
    else (primerExt rest).map (fun e => c :: e)

/-- Case-insensitive prefix test (the `(?i)` mode of `RE_PRIMER`). -/
def ciPrefix : Str → Str → Bool
  | [], _ => true
  | _ :: _, [] => false
  | p :: ps, c :: cs => charLower p == charLower c && ciPrefix ps cs

/-- One `RE_PRIMER` alternative with a lazy tail (`IGH.*?` etc.):
capture is the matched prefix in its original case plus the extension. -/
def primerAlt (t : Str) (pat : Str) : Option Str :=
  if ciPrefix pat t then
    (primerExt (t.drop pat.length)).map (fun e => t.take pat.length ++ e)
  else none

/-- The bare `DJ` alternative (no lazy tail: the next character must
be an underscore or the end). -/
def primerDJ (t : Str) : Option Str :=
  if ciPrefix (str "DJ") t then
    match t.drop 2 with
    | [] => some (t.take 2)
    | '_' :: _ => some (t.take 2)
    | _ => none
  else none

/-- `RE_PRIMER` alternation after an underscore; the alternatives have
pairwise-distinct (case-folded) leading letters, so order is by
first match. -/
def primerAt (t : Str) : Option Str :=
  primerAlt t (str "IGH") <|> primerAlt t (str "IGK") <|> primerAlt t (str "FR") <|>
    primerDJ t <|> primerAlt t (str "TRD") <|> primerAlt t (str "TRB") <|>
    primerAlt t (str "TRG")

/-- Leftmost `RE_PRIMER` search: try each underscore position. -/
def findPrimer : Str → Option Str
  | [] => none
  | c :: rest =>
    if c = '_' then
      match primerAt rest with
      | some cap => some cap
      | none => findPrimer rest
    else findPrimer rest

example : findPrimer (str "21-12345_IGH-FR1_x") = some (str "IGH-FR1") := by decide
example : findPrimer (str "S1_trg") = some (str "trg") := by decide
example : findPrimer (str "S1_DJx") = none := by decide

/-- `parse_samplename` from `src/src/run.rs`: replace spaces by
underscores, then set `dna_nr` from `RE_DNA` (normalized — the
normalizer's panic propagates) and `primer_set` from `RE_PRIMER`. -/
def parse_samplename (s : NewSample) : Option NewSample := do
  let oldname := s.name.map (fun c => if c = ' ' then '_' else c)
  let s1 ← match findDna oldname with
    | some cap => do
      let r ← normalize_dna_nr_ss cap
      pure { s with dna_nr := r }
    | none => pure s
  match findPrimer oldname with
  | some cap => pure { s1 with primer_set := some cap }
  | none => pure s1

/-- Does the string start with `_S\d+_` followed by `.*\.fastq\.gz`
reaching the very end (`.` excludes newlines)? -/
def tailMatches (t : Str) : Bool :=
  match t with
  | '_' :: 'S' :: rest =>
    let ds := rest.takeWhile isDig
    !ds.isEmpty &&
      (match rest.drop ds.length with
       | '_' :: w =>
         endsWith w (str ".fastq.gz") &&
           !((w.take (w.length - 9)).any (fun c => c == '\n'))
       | _ => false)
  | _ => false

/-- Scan for the lazy leftmost `RE_NAME` match; the accumulator holds
the reversed prefix, and the capture is its newline-free tail. -/
def reNameGo : Str → Str → Option Str
  | acc, [] =>
    if tailMatches [] then some ((acc.takeWhile (fun c => c ≠ '\n')).reverse) else none
  | acc, c :: cs =>
    if tailMatches (c :: cs) then some ((acc.takeWhile (fun c => c ≠ '\n')).reverse)
    else reNameGo (c :: acc) cs

/-- The `RE_NAME` capture `(?P<name>.*?)_S\d+_.*\.fastq\.gz$`. -/
def reNameCapture (s : Str) : Option Str := reNameGo [] s

example : reNameCapture (str "21-12345-IGH_S7_L001_R1_001.fastq.gz") =
    some (str "21-12345-IGH") := by decide
example : reNameCapture (str "Undetermined.fastq.gz") = none := by decide

/-- Normalized path segments, as `PathBuf` components: empty and `.`
segments are dropped. -/
def pathSegs (p : Str) : List Str :=
  (splitOnChar '/' p).filter (fun seg => !(seg == []) && !(seg == ['.']))

/-- `Path::file_name()` on a segment list (`None` when there is no
last normal component, e.g. after popping a single-component path). -/
def fileNameSeg (segs : List Str) : Option Str :=
  match segs.getLast? with
  | some s => if s == str ".." then none else some s
  | none => none

/-- The merge loop of `parse_from_fastq`: append the file to the first
sample agreeing on name, DNA number, primer set and project, else push
a new (sample, [file]) pair at the end. -/
def mergeFastq : List (NewSample × List Str) → NewSample → Str → List (NewSample × List Str)
  | [], s, fastq => [(s, [fastq])]
  | (t, fs) :: rest, s, fastq =>
    if t.name == s.name && t.dna_nr == s.dna_nr && t.primer_set == s.primer_set &&
        t.project == s.project then
      (t, fs ++ [fastq]) :: rest
    else (t, fs) :: mergeFastq rest s fastq

/-- The orphan sample `parse_from_fastq` builds for a file: from the
`RE_NAME` capture via `parse_samplename` (whose panic propagates), or
the `"Unknown"` sample when the regex does not match. -/
def orphanSample (file_name dir_name run_name : Str) : Option NewSample :=
  let project := if isPrefixOfB (str "data_") dir_name then some dir_name else none
  match reNameCapture file_name with
  | some nm =>
    parse_samplename { run := [], name := nm, dna_nr := none, project := project,
                       lims_id := none, primer_set := none, cells := none }
  | none =>
    some { run := run_name, name := str "Unknown", dna_nr := none, project := project,
           lims_id := none, primer_set := none, cells := none }

/-- `parse_from_fastq` from `src/src/run.rs`; `none` models the
`unwrap()` panics (missing path components, normalizer overflow). -/
def parse_from_fastq (samples : List (NewSample × List Str)) (fastq : Str)
    (run_name : Str) : Option (List (NewSample × List Str)) :=
  match fileNameSeg (pathSegs fastq) with
  | none => none
  | some file_name =>
    match fileNameSeg (pathSegs fastq).dropLast with
    | none => none
    | some dir_name =>
      match orphanSample file_name dir_name run_name with
      | none => none
      | some s => some (mergeFastq samples s fastq)

/-- Ascending name-length order used by `sort_unstable_by_key`. -/
def sampleLenLe (a b : NewSample × List Str) : Bool :=
  a.1.name.length ≤ b.1.name.length

/-- Sort by name length and reverse: longest names first. -/
def sortSamples (samples : List (NewSample × List Str)) : List (NewSample × List Str) :=
  (insertionSort sampleLenLe samples).reverse

/-- The in-place matching loop of `assign_fastqs`: each sample in
order collects all matching entries of the working file list and those
entries are blanked (cleared, not removed) so indices stay stable. -/
def assignPhase : List (NewSample × List Str) → List Str →
    (List (NewSample × List Str) × List Str)
  | [], fastqs => ([], fastqs)
  | (s, files) :: rest, fastqs =>
    let res := assignPhase rest (fastqs.map (fun f => if match_fastq s f then [] else f))
    ((s, files ++ fastqs.filter (fun f => match_fastq s f)) :: res.1, res.2)

/-- `assign_fastqs` from `src/src/run.rs`: the matching loop, then
orphan recovery over the remaining non-blank files. -/
def assign_fastqs (samples : List (NewSample × List Str)) (fastqs : List Str)
    (run_name : Str) : Option (List (NewSample × List Str)) :=
  let res := assignPhase (sortSamples samples) fastqs
  (res.2.filter (fun f => !f.isEmpty)).foldlM
    (fun acc f => parse_from_fastq acc f run_name) res.1

/-- The multiset of all files attached to samples. -/
def filesUnion (samples : List (NewSample × List Str)) : Multiset Str :=
  ((samples.map (fun p => (↑p.2 : Multiset Str)) : List (Multiset Str)) :
    Multiset (Multiset Str)).sum

/-!
## Claim C1 — FASTQ conservation in `assign_fastqs`
-/

/-- A sample whose matching key is non-empty: a non-empty DNA number
when one is present, a non-empty name otherwise.  (A sample violating
this matches the blanked `""` entries, which breaks conservation —
see the counterexample.) -/
def goodKey (s : NewSample) : Prop :=
  (∀ d, s.dna_nr = some d → d ≠ []) ∧ (s.dna_nr = none → s.name ≠ [])

lemma strContains_nil {pat : Str} (h : pat ≠ []) : strContains [] pat = false := by
  rcases pat with - | ⟨c, cs⟩
  · exact absurd rfl h
  · rfl

lemma match_fastq_nil {s : NewSample} (h : goodKey s) : match_fastq s [] = false := by
  rcases hd : s.dna_nr with - | d
  · have he : match_fastq s [] = strContains [] s.name := by rw [match_fastq, hd]
    rw [he, strContains_nil (h.2 hd)]
  · rcases hp : s.primer_set with - | p
    · have he : match_fastq s [] = strContains [] d := by rw [match_fastq, hd, hp]
      rw [he, strContains_nil (h.1 d hd)]
    · have he : match_fastq s [] = (strContains [] d && strContains [] p) := by
        rw [match_fastq, hd, hp]
      rw [he, strContains_nil (h.1 d hd)]
      rfl

lemma filesUnion_nil : filesUnion [] = 0 := rfl

lemma filesUnion_cons (s : NewSample) (files : List Str)
    (rest : List (NewSample × List Str)) :
    filesUnion ((s, files) :: rest) = ↑files + filesUnion rest := by
  simp [filesUnion]

lemma filesUnion_perm {l1 l2 : List (NewSample × List Str)} (h : l1.Perm l2) :
    filesUnion l1 = filesUnion l2 := by
  rw [filesUnion, filesUnion]
  exact congrArg Multiset.sum (Multiset.coe_eq_coe.mpr (h.map _))

lemma filesUnion_empty_files {l : List (NewSample × List Str)}
    (h : ∀ p ∈ l, p.2 = ([] : List Str)) : filesUnion l = 0 := by
  induction l with
  | nil => rfl
  | cons p rest ih =>
    obtain ⟨s, files⟩ := p
    have hf : files = [] := h (s, files) (by simp)
    rw [filesUnion_cons, hf, ih (fun q hq => h q (by simp [hq]))]
    rfl

lemma insertSorted_perm {α : Type} (le : α → α → Bool) (x : α) :
    ∀ l : List α, (insertSorted le x l).Perm (x :: l)
  | [] => List.Perm.refl _
  | y :: t => by
    rw [insertSorted]
    split
    · exact List.Perm.refl _
    · exact ((insertSorted_perm le x t).cons y).trans (List.Perm.swap x y t)

lemma insertionSort_perm {α : Type} (le : α → α → Bool) :
    ∀ l : List α, (insertionSort le l).Perm l
  | [] => List.Perm.refl _
  | x :: t =>
    (insertSorted_perm le x (insertionSort le t)).trans
      ((insertionSort_perm le t).cons x)

lemma sortSamples_perm (l : List (NewSample × List Str)) : (sortSamples l).Perm l :=
  (List.reverse_perm _).trans (insertionSort_perm sampleLenLe l)

lemma filter_map_clear (m : Str → Bool) (l : List Str) :
    ((l.map (fun f => if m f then [] else f)).filter (fun f => !f.isEmpty)) =
      l.filter (fun f => !(m f) && !f.isEmpty) := by
  induction l with
  | nil => rfl
  | cons f t ih =>
    cases hm : m f <;> simp [List.filter_cons, hm, ih]

lemma isEmpty_false_of_ne {f : Str} (h : f ≠ []) : f.isEmpty = false := by
  rcases f with - | ⟨c, cs⟩
  · exact absurd rfl h
  · rfl

lemma filter_multiset_split (m : Str → Bool) (l : List Str)
    (hme : ∀ f, m f = true → f ≠ []) :
    (↑(l.filter m) : Multiset Str) + ↑(l.filter (fun f => !(m f) && !f.isEmpty)) =
      ↑(l.filter (fun f => !f.isEmpty)) := by
  induction l with
  | nil => rfl
  | cons f t ih =>
    cases hm : m f
    · cases hf : f.isEmpty
      · rw [List.filter_cons_of_neg (by simp [hm]),
          List.filter_cons_of_pos (by simp [hm, hf]),
          List.filter_cons_of_pos (by simp [hf]),
          ← Multiset.cons_coe, ← Multiset.cons_coe, Multiset.add_cons]
        exact congrArg (Multiset.cons f) ih
      · rw [List.filter_cons_of_neg (by simp [hm]),
          List.filter_cons_of_neg (by simp [hf]),
          List.filter_cons_of_neg (by simp [hf])]
        exact ih
    · have hf : f.isEmpty = false := isEmpty_false_of_ne (hme f hm)
      rw [List.filter_cons_of_pos (by simp [hm]),
        List.filter_cons_of_neg (by simp [hm]),
        List.filter_cons_of_pos (by simp [hf]),
        ← Multiset.cons_coe, ← Multiset.cons_coe, Multiset.cons_add]
      exact congrArg (Multiset.cons f) ih

lemma assignPhase_conservation :
    ∀ (samples : List (NewSample × List Str)) (fastqs : List Str),
    (∀ p ∈ samples, goodKey p.1) →
    filesUnion (assignPhase samples fastqs).1 +
        ↑((assignPhase samples fastqs).2.filter (fun f => !f.isEmpty)) =
      filesUnion samples + ↑(fastqs.filter (fun f => !f.isEmpty)) := by
  intro samples
  induction samples with
  | nil => intro fastqs h; simp [assignPhase]
  | cons p rest ih =>
    intro fastqs h
    obtain ⟨s, files⟩ := p
    have hkey : goodKey s := h (s, files) (by simp)
    have hme : ∀ f, match_fastq s f = true → f ≠ [] := by
      intro f hm hf
      subst hf
      rw [match_fastq_nil hkey] at hm
      exact absurd hm (by simp)
    rw [assignPhase]
    simp only [filesUnion_cons]
    have ih' := ih (fastqs.map (fun f => if match_fastq s f then [] else f))
      (fun q hq => h q (by simp [hq]))
    rw [filter_map_clear] at ih'
    rw [add_assoc, ih', ← Multiset.coe_add]
    rw [← filter_multiset_split (fun f => match_fastq s f) fastqs hme]
    abel

lemma mergeFastq_union :
    ∀ (samples : List (NewSample × List Str)) (s : NewSample) (fastq : Str),
    filesUnion (mergeFastq samples s fastq) = fastq ::ₘ filesUnion samples := by
  intro samples s fastq
  induction samples with
  | nil =>
    rw [mergeFastq, filesUnion_cons, filesUnion_nil]
    rfl
  | cons p rest ih =>
    obtain ⟨t, fs⟩ := p
    rw [mergeFastq]
    split
    · rw [filesUnion_cons, filesUnion_cons, ← Multiset.coe_add, Multiset.coe_singleton,
        ← Multiset.singleton_add]
      abel
    · rw [filesUnion_cons, filesUnion_cons, ih, Multiset.add_cons]

lemma parse_from_fastq_union {samples : List (NewSample × List Str)}
    {fastq run_name : Str} {out : List (NewSample × List Str)}
    (h : parse_from_fastq samples fastq run_name = some out) :
    filesUnion out = fastq ::ₘ filesUnion samples := by
  rw [parse_from_fastq] at h
  rcases h1 : fileNameSeg (pathSegs fastq) with - | fn <;> rw [h1] at h
  · simp at h
  · rcases h2 : fileNameSeg (pathSegs fastq).dropLast with - | dn <;> rw [h2] at h
    · simp at h
    · dsimp only at h
      rcases h3 : orphanSample fn dn run_name with - | s <;> rw [h3] at h
      · simp at h
      · simp only [Option.some.injEq] at h
        rw [← h, mergeFastq_union]

lemma foldlM_parse_union (run_name : Str) : ∀ (fl : List Str)
    (samples out : List (NewSample × List Str)),
    fl.foldlM (fun acc f => parse_from_fastq acc f run_name) samples = some out →
    filesUnion out = filesUnion samples + ↑fl := by
  intro fl
  induction fl with
  | nil =>
    intro samples out h
    have hs : samples = out := by simpa using h
    subst hs
    simp
  | cons f t ih =>
    intro samples out h
    rw [List.foldlM_cons] at h
    rcases h1 : parse_from_fastq samples f run_name with - | d <;> rw [h1] at h
    · exact Option.noConfusion h
    · have h' : t.foldlM (fun acc f => parse_from_fastq acc f run_name) d = some out := h
      rw [ih d out h', parse_from_fastq_union h1, ← Multiset.cons_coe, Multiset.add_cons,
        Multiset.cons_add]

/-- C1 counterexample: two samples with empty names (and no DNA
number) re-match the blanked `""` entries, so the multiset union of
the assigned file lists gains an empty filename that was never in the
input list. -/
theorem assign_fastqs_counterexample :
    assign_fastqs
        [({ run := str "r", name := [], dna_nr := none, project := none,
            lims_id := none, primer_set := none, cells := none }, []),
         ({ run := str "r", name := [], dna_nr := none, project := none,
            lims_id := none, primer_set := none, cells := none }, [])]
        [str "x"] (str "r") =
      some [({ run := str "r", name := [], dna_nr := none, project := none,
               lims_id := none, primer_set := none, cells := none }, [str "x"]),
            ({ run := str "r", name := [], dna_nr := none, project := none,
               lims_id := none, primer_set := none, cells := none }, [[]])] ∧
    filesUnion [({ run := str "r", name := [], dna_nr := none, project := none,
                   lims_id := none, primer_set := none, cells := none }, [str "x"]),
                ({ run := str "r", name := [], dna_nr := none, project := none,
                   lims_id := none, primer_set := none, cells := none }, [[]])] ≠
      (↑[str "x"] : Multiset Str) := by decide

/-- C1 (amended): when every sample's matching key is non-empty (a
non-empty DNA number when one is present, a non-empty name otherwise),
every sample starts with an empty file list, every input FASTQ path is
non-empty, and `assign_fastqs` completes without panicking, the
multiset union of all samples' file lists — orphan-synthesized samples
included — equals the multiset of input files: every input file is
attached to exactly one sample, none lost or duplicated. -/
theorem assign_fastqs_conservation (S : List (NewSample × List Str)) (F : List Str)
    (run_name : Str) (out : List (NewSample × List Str))
    (hkeys : ∀ p ∈ S, goodKey p.1)
    (hinit : ∀ p ∈ S, p.2 = ([] : List Str))
    (hF : ∀ f ∈ F, f ≠ [])
    (hrun : assign_fastqs S F run_name = some out) :
    filesUnion out = (↑F : Multiset Str) := by
  have hsortkeys : ∀ p ∈ sortSamples S, goodKey p.1 :=
    fun p hp => hkeys p ((sortSamples_perm S).mem_iff.mp hp)
  rw [assign_fastqs] at hrun
  have hout := foldlM_parse_union run_name _ _ _ hrun
  have hphase := assignPhase_conservation (sortSamples S) F hsortkeys
  have hsort0 : filesUnion (sortSamples S) = 0 := by
    rw [filesUnion_perm (sortSamples_perm S)]
    exact filesUnion_empty_files hinit
  have hFfull : F.filter (fun f => !f.isEmpty) = F :=
    List.filter_eq_self.mpr (fun f hf => by rw [isEmpty_false_of_ne (hF f hf)]; rfl)
  rw [hout, hphase, hsort0, hFfull, zero_add]

/-- Witness for C1: a run-sheet sample named `S1` plus an orphan file;
both files end up attached exactly once. -/
theorem assign_fastqs_conservation_witness :
    filesUnion
        [({ run := str "r", name := str "S1", dna_nr := none, project := none,
            lims_id := none, primer_set := none, cells := none },
          [str "data_P/S1_S1_L001_R1_001.fastq.gz"]),
         ({ run := [], name := str "Other", dna_nr := none, project := some (str "data_P"),
            lims_id := none, primer_set := none, cells := none },
          [str "data_P/Other_S2_L001_R1_001.fastq.gz"])] =
      (↑[str "data_P/S1_S1_L001_R1_001.fastq.gz",
         str "data_P/Other_S2_L001_R1_001.fastq.gz"] : Multiset Str) :=
  assign_fastqs_conservation
    [({ run := str "r", name := str "S1", dna_nr := none, project := none,
        lims_id := none, primer_set := none, cells := none }, [])]
    [str "data_P/S1_S1_L001_R1_001.fastq.gz",
     str "data_P/Other_S2_L001_R1_001.fastq.gz"]
    (str "r") _
    (by
      intro p hp
      rw [List.mem_singleton] at hp
      subst hp
      exact ⟨fun d hd => by simp at hd, fun _ => by decide⟩)
    (by decide) (by decide) (by decide)
